import Mathlib

/-!
# Verification of the Trading-agent signal/backtest core

A shallow embedding, in Lean 4, of the signal-detection and simulation
engine of the Trading-agent repository, together with proofs of the
documented correctness properties.

Embedding conventions:
* JS `number` prices and returns become `ℚ`; millisecond timestamps become `ℤ`.
* TS records become structures; string literal unions become inductives.
* JS `Map` / keyed records become association lists (`List (key × value)`);
  deleting a key removes every entry with that key, which coincides with map
  semantics because a map holds at most one entry per key.
* Fallible lookups (`xs.at(-1)`, `map.get`) return `Option`.
* The field names `open`/`high`/`low`/`close`/`volume` of TS candles are
  shortened to `o`/`h`/`l`/`c`/`v` (`open` is a Lean keyword); every other
  name follows the source.
* `src/market/time.ts` is translated below (`nyPartsFromMs`, `nyDayKey`,
  `isRegularSessionNY`).  Its `Intl.DateTimeFormat` conversion to
  `America/New_York` wall-clock parts is realised as proleptic-Gregorian
  calendar arithmetic combined with the US Eastern DST rule in force since
  2007 — EDT (UTC−4) from 07:00 UTC on the second Sunday of March to
  06:00 UTC on the first Sunday of November, EST (UTC−5) otherwise — which
  is exactly the offset the time-zone database assigns to every instant in
  that era.  The `"YYYY-MM-DD"` day-key string is encoded as the integer
  `y * 10000 + m * 100 + d`; two instants receive equal integer keys exactly
  when the source gives them equal strings.  The engine theorems are stated
  for an arbitrary `TimeEnv` and instantiated at the concrete `nyTime`.
-/

-- Batteries marks the `Rat` field operations `@[irreducible]`; re-open them
-- so that concrete runs of the embedded engine reduce under `decide`.
unseal Rat.add Rat.mul Rat.sub Rat.inv

namespace TradingAgent


/-- `TradeDir` from `src/sim/backtestEngine.ts` (also `TradeDirection` of the
outcome tracker). -/
inductive TradeDir
  | LONG
  | SHORT
deriving DecidableEq

/-- `ExitReason` from `src/sim/backtestEngine.ts`. -/
inductive ExitReason
  | STOP
  | TARGET
  | EOD
deriving DecidableEq

/-- `LevelKey` from `src/sim/backtestEngine.ts`. -/
inductive LevelKey
  | PMH
  | PML
  | PDH
  | PDL
  | RR
deriving DecidableEq

/-- `SimTrade` from `src/sim/backtestEngine.ts`.  The `meta.levelId` entry of
the TS record (the only meta entry the engine reads back) is kept as the field
`metaLevelId`. -/
structure SimTrade where
  ticker : String
  dir : TradeDir
  levelKey : LevelKey
  levelPrice : ℚ
  entryTs : ℤ
  entryPrice : ℚ
  stopPrice : ℚ
  targetPrice : ℚ
  exitTs : ℤ
  exitPrice : ℚ
  exitReason : ExitReason
  rMult : ℚ
  barsHeld : ℕ
  metaLevelId : String
deriving DecidableEq

/-- `EquityPoint` from `src/sim/backtestEngine.ts`. -/
structure EquityPoint where
  ts : ℤ
  equity : ℚ
  drawdown : ℚ
deriving DecidableEq

/-- The comparator `(a, b) => a.exitTs - b.exitTs || a.entryTs - b.entryTs`
used by `generateEquityCurve`, as a total boolean order for merge sort (JS
`Array.prototype.sort` is stable). -/
def tradeLE (a b : SimTrade) : Bool :=
  a.exitTs < b.exitTs || (a.exitTs = b.exitTs && a.entryTs ≤ b.entryTs)

/-- The accumulation loop of `generateEquityCurve`: running equity and running
peak, emitting `drawdown = equity - peak`. -/
def equityFold : List SimTrade → ℚ → ℚ → List EquityPoint
  | [], _, _ => []
  | t :: rest, equity, peak =>
    let e := equity + t.rMult
    let p := max peak e
    { ts := t.exitTs, equity := e, drawdown := e - p } :: equityFold rest e p

/-- `generateEquityCurve` from `src/sim/backtestEngine.ts` (lines 1072-1085):
sort a copy of the trades by `(exitTs, entryTs)` and fold. -/
def generateEquityCurve (trades : List SimTrade) : List EquityPoint :=
  equityFold (trades.mergeSort (tradeLE · ·)) 0 0

-- ------------------------------------------------------------------
-- Relative strength (`src/engine/rs.ts`)
-- ------------------------------------------------------------------

/-- `MarketDirection` from `src/market/marketDirection.ts`. -/
inductive MarketDirection
  | BULLISH
  | BEARISH
  | NEUTRAL
deriving DecidableEq

/-- `RelativeStrength` from the engine types. -/
inductive RelativeStrength
  | STRONG
  | WEAK
  | NONE
deriving DecidableEq

/-- `Bar5` from `src/market/marketDirection.ts`. -/
structure Bar5 where
  t : ℤ
  o : ℚ
  h : ℚ
  l : ℚ
  c : ℚ
deriving DecidableEq

/-- JS `xs.at(-k)` for `k ≥ 1`: the `k`-th element from the end, `none` when
out of range. -/
def atNeg {α : Type} (xs : List α) (k : ℕ) : Option α :=
  if k ≤ xs.length then xs.get? (xs.length - k) else none

/-- The percentage return `(now.c - past.c) / past.c` between `xs.at(-1)` and
`xs.at(-(w+1))` computed by `computeRS`; `0` when either bar is missing (in the
source the lookups are guarded by the length checks). -/
def windowReturn (bars : List Bar5) (w : ℕ) : ℚ :=
  match atNeg bars 1, atNeg bars (w + 1) with
  | some now, some past => (now.c - past.c) / past.c
  | _, _ => 0

/-- `computeRS` from `src/engine/rs.ts` (lines 11-37). -/
def computeRS (marketDir : MarketDirection) (symBars5 spyBars5 : List Bar5)
    (windowBars : ℕ) : RelativeStrength :=
  if marketDir = .NEUTRAL then .NONE
  else if symBars5.length < windowBars + 1 then .NONE
  else if spyBars5.length < windowBars + 1 then .NONE
  else
    let symRet := windowReturn symBars5 windowBars
    let spyRet := windowReturn spyBars5 windowBars
    if marketDir = .BULLISH then
      if spyRet < symRet then .STRONG else .NONE
    else
      if symRet < spyRet then .WEAK else .NONE

-- ------------------------------------------------------------------
-- Outcome tracker (`src/db/db.ts`, `OutcomeTracker`)
-- ------------------------------------------------------------------

/-- Session status of an `ActiveSession`. -/
inductive SessionStatus
  | LIVE
  | STOPPED
  | COMPLETED
deriving DecidableEq

/-- `ActiveSession` from the outcome tracker.  `returnsPct` is keyed in the
source by the strings `"1m"`, `"3m"`, …; the key is kept as the checkpoint
minute itself. -/
structure ActiveSession where
  alertId : String
  symbol : String
  dir : TradeDir
  structureLevel : ℚ
  entryTs : ℤ
  entryRefPrice : ℚ
  status : SessionStatus
  endTs : ℤ
  maxHigh : ℚ
  minLow : ℚ
  mfeAbs : ℚ
  maeAbs : ℚ
  mfeTs : Option ℤ
  stoppedOut : Bool
  stopTs : Option ℤ
  stopClose : Option ℚ
  barsToStop : Option ℕ
  bar5Count : ℕ
  checkpointsMin : List ℕ
  returnsPct : List (ℕ × ℚ)
deriving DecidableEq

/-- `TradeOutcome` as constructed by `OutcomeTracker.finalize`. -/
structure TradeOutcome where
  alertId : String
  symbol : String
  dir : TradeDir
  structureLevel : ℚ
  entryTs : ℤ
  entryRefPrice : ℚ
  status : SessionStatus
  endTs : ℤ
  mfeAbs : ℚ
  maeAbs : ℚ
  mfePct : ℚ
  maePct : ℚ
  timeToMfeSec : Option ℤ
  stoppedOut : Bool
  stopTs : Option ℤ
  stopClose : Option ℚ
  stopReturnPct : Option ℚ
  barsToStop : Option ℕ
  returnsPct : List (ℕ × ℚ)
deriving DecidableEq

/-- Association-list lookup (JS `Map.get`). -/
def alookup {α : Type} (l : List (String × α)) (k : String) : Option α :=
  (l.find? (fun p => p.1 = k)).map (fun p => p.2)

/-- Association-list overwrite of an existing key (JS `Map.set` on a present
key; a map holds one entry per key, so replacing every occurrence agrees). -/
def aset {α : Type} (l : List (String × α)) (k : String) (v : α) :
    List (String × α) :=
  l.map (fun p => if p.1 = k then (p.1, v) else p)

/-- Association-list deletion (JS `Map.delete`). -/
def adelete {α : Type} (l : List (String × α)) (k : String) : List (String × α) :=
  l.filter (fun p => ¬ p.1 = k)

/-- `Number(x.toFixed(d))` — decimal rounding to `d` places.  JS rounds the
exact tie to the nearer even/away value depending on the binary
representation; ties are modelled as round-half-up (`round`). -/
def toFixedRound (d : ℕ) (q : ℚ) : ℚ :=
  ((round (q * 10 ^ d) : ℤ) : ℚ) / 10 ^ d

/-- Tracker state: the two indices held by `OutcomeTracker`
(`sessionsById`, `sessionsBySymbol`). -/
structure TrackerState where
  sessionsById : List (String × ActiveSession)
  sessionsBySymbol : List (String × List String)
deriving DecidableEq

/-- The body of the `onBar5Close` loop for one `LIVE` session (db.ts lines
501-512): count the aggregated bar, and stop the session iff the close is
strictly beyond the structure level (below for `LONG`, above for `SHORT`). -/
def bar5Update (s : ActiveSession) (ts : ℤ) (close : ℚ) : ActiveSession :=
  let s1 := { s with bar5Count := s.bar5Count + 1 }
  let stopHit : Bool :=
    match s1.dir with
    | .LONG => close < s1.structureLevel
    | .SHORT => s1.structureLevel < close
  if stopHit then
    { s1 with status := .STOPPED, stoppedOut := true, stopTs := some ts,
              stopClose := some close, barsToStop := some s1.bar5Count }
  else s1

/-- `OutcomeTracker.onBar5Close` (db.ts lines 491-516): apply `bar5Update` to
every `LIVE` session of the symbol, returning the ids stopped on this bar and
the updated state. -/
def onBar5Close (st : TrackerState) (symbol : String) (ts : ℤ) (close : ℚ) :
    List String × TrackerState :=
  match alookup st.sessionsBySymbol symbol with
  | none => ([], st)
  | some ids =>
    let r := ids.foldl
      (fun (acc : List String × List (String × ActiveSession)) id =>
        match alookup acc.2 id with
        | none => acc
        | some s =>
          if s.status = .LIVE then
            let s1 := bar5Update s ts close
            ((if s1.status = .STOPPED then acc.1 ++ [id] else acc.1),
              aset acc.2 id s1)
          else acc)
      ([], st.sessionsById)
    (r.1, { st with sessionsById := r.2 })

/-- The `TradeOutcome` record built by `finalize` (db.ts lines 523-560). -/
def mkOutcome (s : ActiveSession) : TradeOutcome :=
  let mfePct := if 0 < s.entryRefPrice then s.mfeAbs / s.entryRefPrice * 100 else 0
  let maePct := if 0 < s.entryRefPrice then s.maeAbs / s.entryRefPrice * 100 else 0
  { alertId := s.alertId, symbol := s.symbol, dir := s.dir,
    structureLevel := s.structureLevel, entryTs := s.entryTs,
    entryRefPrice := s.entryRefPrice, status := s.status,
    endTs := s.stopTs.getD s.endTs,
    mfeAbs := toFixedRound 6 s.mfeAbs, maeAbs := toFixedRound 6 s.maeAbs,
    mfePct := toFixedRound 4 mfePct, maePct := toFixedRound 4 maePct,
    timeToMfeSec := s.mfeTs.map
      (fun mts => max 0 (round (((mts - s.entryTs : ℤ) : ℚ) / 1000))),
    stoppedOut := s.stoppedOut,
    stopTs := s.stopTs, stopClose := s.stopClose,
    stopReturnPct :=
      if s.stoppedOut then
        s.stopClose.map (fun sc =>
          toFixedRound 4
            ((if s.dir = .LONG then sc - s.entryRefPrice
              else s.entryRefPrice - sc) / s.entryRefPrice * 100))
      else none,
    barsToStop := s.barsToStop, returnsPct := s.returnsPct }

/-- `OutcomeTracker.finalize` (db.ts lines 518-570): `none` for an unknown or
still-`LIVE` session; otherwise the finalized outcome, with the session
removed from both indices. -/
def finalize (st : TrackerState) (alertId : String) :
    Option TradeOutcome × TrackerState :=
  match alookup st.sessionsById alertId with
  | none => (none, st)
  | some s =>
    if s.status = .LIVE then (none, st)
    else
      (some (mkOutcome s),
        { sessionsById := adelete st.sessionsById alertId,
          sessionsBySymbol :=
            (st.sessionsBySymbol.map (fun p =>
                if p.1 = s.symbol then (p.1, p.2.filter (fun i => ¬ i = alertId))
                else p)).filter
              (fun p => ¬ (p.1 = s.symbol ∧ p.2 = [])) })

-- ------------------------------------------------------------------
-- Live signal state machine (`SignalEngine`; the repository carries two
-- revisions of `src/engine/signalEngine.ts`, and the one embedded here is
-- the revision with the 1-minute tap/hysteresis entry path, which is the
-- one the spec describes).
-- ------------------------------------------------------------------

/-- `Direction` from the engine types. -/
inductive Direction
  | CALL
  | PUT
deriving DecidableEq

/-- `LevelType` from `src/market/levels.ts`. -/
inductive LevelType
  | PMH
  | PML
  | PDH
  | PDL
deriving DecidableEq

/-- `SignalState` from the engine types. -/
inductive SignalState
  | IDLE
  | BROKEN (dir : Direction) (levelType : LevelType) (levelPrice : ℚ)
      (breakBarTime : ℤ)
  | COOLDOWN (untilBarTime : ℤ)
deriving DecidableEq

/-- The tap-hysteresis record attached to a `BROKEN` state. -/
structure TapState where
  key : String
  canFire : Bool
  tol : ℚ
deriving DecidableEq

/-- `SymbolContext` (the `levels`/`bars5` fields are not read by the handlers
embedded here, which receive bars and levels as arguments). -/
structure SymbolContext where
  state : SignalState
  lastMarket : Option MarketDirection
  lastRS : Option RelativeStrength
  tapState : Option TapState
deriving DecidableEq

/-- `EngineConfig`. -/
structure EngineConfig where
  timeframeMin : ℤ
  retestTolerancePct : ℚ
  rsWindowBars5m : ℕ

/-- The four optional level prices of `Levels` (`src/market/levels.ts`); the
bookkeeping fields not read by `getLevelPrice` are omitted. -/
structure Levels where
  pmh : Option ℚ
  pml : Option ℚ
  pdh : Option ℚ
  pdl : Option ℚ
deriving DecidableEq

/-- `getLevelPrice` from `src/market/levels.ts`. -/
def getLevelPrice (levels : Levels) : LevelType → Option ℚ
  | .PMH => levels.pmh
  | .PML => levels.pml
  | .PDH => levels.pdh
  | .PDL => levels.pdl

/-- `Alert` as produced by `SignalEngine.emit`.  The random `id` is not
modelled; the `"—"` placeholders become `none`. -/
structure Alert where
  ts : ℤ
  symbol : String
  market : MarketDirection
  rs : RelativeStrength
  dir : Option Direction
  level : Option LevelType
  levelPrice : Option ℚ
  structureLevel : Option ℚ
  breakBarTime : Option ℤ
  close : ℚ
  message : String
deriving DecidableEq

def dirStr : Direction → String
  | .CALL => "CALL"
  | .PUT => "PUT"

def levelTypeStr : LevelType → String
  | .PMH => "PMH"
  | .PML => "PML"
  | .PDH => "PDH"
  | .PDL => "PDL"

/-- The tap-state key `` `${symbol}|${dir}|${levelType}|${levelPrice}` ``
(the numeric formatting of the level price only matters for key identity). -/
def tapKey (symbol : String) (d : Direction) (lt : LevelType) (lp : ℚ) :
    String :=
  symbol ++ "|" ++ dirStr d ++ "|" ++ levelTypeStr lt ++ "|" ++ toString lp

/-- `SignalEngine.emit`: build an alert; when the symbol is `BROKEN`, the
structure level and break time come from the broken state, otherwise the

structure level falls back to the alert's level price.  `Date.now()` is the
explicit `now`. -/

def emit (ctx : SymbolContext) (now : ℤ) (symbol : String)
    (marketDir : MarketDirection) (rs : RelativeStrength)
    (dir : Option Direction) (level : Option LevelType)
    (levelPrice : Option ℚ) (close : ℚ) (message : String) : Alert :=
  let broken : Option (ℚ × ℤ) :=
    match ctx.state with
    | .BROKEN _ _ lp bt => some (lp, bt)
    | _ => none
  { ts := now, symbol := symbol, market := marketDir, rs := rs, dir := dir,
    level := level,
    levelPrice := levelPrice,
    structureLevel := match broken with
      | some (lp, _) => some lp
      | none => levelPrice,
    breakBarTime := broken.map (fun p => p.2),
    close := close, message := message }

/-- `SignalEngine.emitAndCooldown` (part_005 lines 233-250): emit, then place
the symbol in `COOLDOWN` until `now + 2 × timeframeMin` minutes and clear the
tap state. -/
def emitAndCooldown (cfg : EngineConfig) (ctx : SymbolContext) (now : ℤ)
    (symbol : String) (marketDir : MarketDirection) (rs : RelativeStrength)
    (dir : Option Direction) (level : Option LevelType)
    (levelPrice : Option ℚ) (close : ℚ) (message : String) :
    Alert × SymbolContext :=
  (emit ctx now symbol marketDir rs dir level levelPrice close message,
    { ctx with
      state := .COOLDOWN (now + 2 * cfg.timeframeMin * 60000),
      tapState := none })

/-- The tail of `SignalEngine.onMinuteBar` (part_005 lines 212-231), after
the tap state `tap` has been looked up or re-initialised: hysteresis re-arm,
touch test and entry firing.  `ctx1` is the context already holding `tap`. -/
def onMinuteBarFire (ctx1 : SymbolContext) (now : ℤ) (symbol : String)
    (sdir : Direction) (slt : LevelType) (slp : ℚ)
    (marketDir : MarketDirection) (rs : RelativeStrength)
    (high low close : ℚ) (tap : TapState) : Option Alert × SymbolContext :=
  let tol := tap.tol
  let touched := low ≤ slp + tol ∧ slp - tol ≤ high
  let disengageDist := tol * 2
  if tap.canFire = false then
    let rearm : Bool :=
      match sdir with
      | .CALL => decide (slp + disengageDist < close)
      | .PUT => decide (close < slp - disengageDist)
    if rearm then
      (none, { ctx1 with tapState := some { tap with canFire := true } })
    else (none, ctx1)
  else if ¬ touched then (none, ctx1)
  else
    let ctx2 := { ctx1 with tapState := some { tap with canFire := false } }
    (some (emit ctx2 now symbol marketDir rs (some sdir) (some slt)
      (some slp) close "A+ ENTRY (1m TAP)"), ctx2)

/-- `SignalEngine.onMinuteBar` (part_005 lines 180-231): the 1-minute entry
confirmation path (tap within tolerance plus hysteresis). -/
def onMinuteBar (cfg : EngineConfig) (ctx : SymbolContext) (now : ℤ)
    (symbol : String) (ts : ℤ) (high low close : ℚ)
    (marketDir : MarketDirection) : Option Alert × SymbolContext :=
  match ctx.state with
  | .BROKEN sdir slt slp sbt =>
    if ts ≤ sbt then (none, ctx)
    else if marketDir = .NEUTRAL then (none, ctx)
    else
      let expectedDir : Direction := if marketDir = .BULLISH then .CALL else .PUT
      if sdir ≠ expectedDir then (none, ctx)
      else
        let rs := ctx.lastRS.getD .NONE
        if sdir = .CALL ∧ rs ≠ .STRONG then (none, ctx)
        else if sdir = .PUT ∧ rs ≠ .WEAK then (none, ctx)
        else
          let key := tapKey symbol sdir slt slp
          let tap : TapState :=
            match ctx.tapState with
            | some t =>
              if t.key = key then t
              else { key := key, canFire := true,
                     tol := |slp| * cfg.retestTolerancePct }
            | none => { key := key, canFire := true,
                        tol := |slp| * cfg.retestTolerancePct }
          onMinuteBarFire { ctx with tapState := some tap } now symbol sdir slt
            slp marketDir rs high low close tap
  | _ => (none, ctx)

/-- The break-scan loop of `evaluateSymbol`: try the candidate level types in
priority order; on the first broken level set `BROKEN`, arm the tap state and
emit a forming alert. -/
def scanBreak (cfg : EngineConfig) (ctx : SymbolContext) (now : ℤ)
    (symbol : String) (marketDir : MarketDirection) (rs : RelativeStrength)
    (dir : Direction) (last : Bar5) (symLevels : Levels) :
    List LevelType → Option Alert × SymbolContext
  | [] => (none, ctx)
  | lt :: rest =>
    match getLevelPrice symLevels lt with
    | none => scanBreak cfg ctx now symbol marketDir rs dir last symLevels rest
    | some lp =>
      let broke : Bool :=
        match dir with
        | .CALL => decide (lp < last.c ∧ rs = .STRONG)
        | .PUT => decide (last.c < lp ∧ rs = .WEAK)
      if broke then
        let ctx1 := { ctx with
          state := .BROKEN dir lt lp last.t,
          tapState := some { key := tapKey symbol dir lt lp, canFire := true,
                             tol := |lp| * cfg.retestTolerancePct } }
        (some (emit ctx1 now symbol marketDir rs (some dir) (some lt) (some lp)
          last.c "A+ SETUP FORMING — WAIT FOR RETEST"), ctx1)
      else scanBreak cfg ctx now symbol marketDir rs dir last symLevels rest

/-- `SignalEngine.evaluateSymbol` (part_005 lines 87-178): the 5-minute-bar
evaluation — neutral gate, relative-strength refresh, cooldown expiry,
invalidation of a broken setup, and the break scan. -/
def evaluateSymbol (cfg : EngineConfig) (ctx : SymbolContext) (now : ℤ)
    (symbol : String) (marketDir : MarketDirection)
    (spyBars5 symBars5 : List Bar5) (symLevels : Levels) :
    Option Alert × SymbolContext :=
  match symBars5.getLast? with
  | none => (none, ctx)
  | some last =>
    let ctx := { ctx with lastMarket := some marketDir }
    if marketDir = .NEUTRAL then
      let ctx := { ctx with lastRS := some .NONE }
      match ctx.state with
      | .BROKEN _ _ _ _ =>
        let r := emitAndCooldown cfg ctx now symbol marketDir .NONE none none
          none last.c "SETUP INVALID — STAND DOWN"
        (some r.1, r.2)
      | _ => (none, ctx)
    else
      let dir : Direction := if marketDir = .BULLISH then .CALL else .PUT
      let rs := computeRS marketDir symBars5 spyBars5 cfg.rsWindowBars5m
      let ctx := { ctx with lastRS := some rs }
      let ctx :=
        match ctx.state with
        | .COOLDOWN u => if u < now then { ctx with state := .IDLE } else ctx
        | _ => ctx
      match ctx.state with
      | .COOLDOWN _ => (none, ctx)
      | .BROKEN sdir _ slp _ =>
        let invalid :=
          sdir ≠ dir
          ∨ (dir = .CALL ∧ rs ≠ .STRONG)
          ∨ (dir = .PUT ∧ rs ≠ .WEAK)
          ∨ (sdir = .CALL ∧ last.c < slp)
          ∨ (sdir = .PUT ∧ slp < last.c)
        if invalid then
          let r := emitAndCooldown cfg ctx now symbol marketDir rs none none
            none last.c "SETUP INVALID — STAND DOWN"
          (some r.1, r.2)
        else (none, ctx)
      | .IDLE =>
        scanBreak cfg ctx now symbol marketDir rs dir last symLevels
          (match dir with
           | .CALL => [LevelType.PMH, LevelType.PDH]
           | .PUT => [LevelType.PML, LevelType.PDL])

/-- A broken-state context about to receive a qualifying 1-minute tap:
symbol `XYZ`, `CALL` break of `PMH = 100` at time `1000`, `STRONG` relative
strength, armed tap state with tolerance `1/10`. -/
def tapCtx : SymbolContext :=
  { state := .BROKEN .CALL .PMH 100 1000,
    lastMarket := some .BULLISH,
    lastRS := some .STRONG,
    tapState := some { key := tapKey "XYZ" .CALL .PMH 100, canFire := true,
                       tol := 1/10 } }

/-- The engine configuration used for the concrete signal-engine runs. -/
def tapCfg : EngineConfig :=
  { timeframeMin := 5, retestTolerancePct := 1/1000, rsWindowBars5m := 3 }

-- ------------------------------------------------------------------
-- Market bias from VWAP (`src/index.ts`, lines 2375-2430)
-- ------------------------------------------------------------------

/-- The side of a price relative to a VWAP. -/
inductive VwapSide
  | ABOVE
  | BELOW
  | NA
deriving DecidableEq

/-- The module state read by the bias functions: last traded price and
session VWAP per symbol (`lastPriceMap`, `vwapMap`) and the normalized
watchlist. -/
structure BiasEnv where
  lastPrice : String → Option ℚ
  vwap : String → Option ℚ
  watchlist : List String

/-- `computeIndexSide` (index.ts lines 2375-2380): `ABOVE` iff
`price ≥ vwap`, `NA` when either is missing. -/
def computeIndexSide (env : BiasEnv) (symbol : String) : VwapSide :=
  match env.lastPrice symbol, env.vwap symbol with
  | some p, some v => if v ≤ p then .ABOVE else .BELOW
  | _, _ => .NA

/-- The `above`/`below` counters of `computeMarketBiasFromVwap`: watch-set
members with both a price and a VWAP, counted by side (`p ≥ v` counts as
above). -/
def breadthCounts (env : BiasEnv) (symbols : List String) : ℕ × ℕ :=
  symbols.foldl
    (fun acc s =>
      match env.lastPrice s, env.vwap s with
      | some p, some v => if v ≤ p then (acc.1 + 1, acc.2) else (acc.1, acc.2 + 1)
      | _, _ => acc)
    (0, 0)

/-- `computeMarketBiasFromVwap` (index.ts lines 2382-2409): breadth of the
watch set with a `< 3`-member fallback to the SPY/QQQ sides. -/
def computeMarketBiasFromVwap (env : BiasEnv) (symbols : List String) :
    MarketDirection :=
  let above := (breadthCounts env symbols).1
  let below := (breadthCounts env symbols).2
  let total := above + below
  if total < 3 then
    let spy := computeIndexSide env "SPY"
    let qqq := computeIndexSide env "QQQ"
    if spy = .ABOVE ∧ qqq = .ABOVE then .BULLISH
    else if spy = .BELOW ∧ qqq = .BELOW then .BEARISH
    else .NEUTRAL
  else
    if (3 : ℚ) / 5 ≤ (above : ℚ) / (total : ℚ) then .BULLISH
    else if (above : ℚ) / (total : ℚ) ≤ (2 : ℚ) / 5 then .BEARISH
    else .NEUTRAL

/-- `getEffectiveMarketDir` (index.ts lines 2417-2430): breadth bias and
benchmark alignment must agree, else `NEUTRAL`. -/
def getEffectiveMarketDir (env : BiasEnv) : MarketDirection :=
  let spy := computeIndexSide env "SPY"
  let qqq := computeIndexSide env "QQQ"
  let indexAlignedBull := spy = .ABOVE ∧ qqq = .ABOVE
  let indexAlignedBear := spy = .BELOW ∧ qqq = .BELOW
  let bias := computeMarketBiasFromVwap env env.watchlist
  if bias = .BULLISH ∧ indexAlignedBull then .BULLISH
  else if bias = .BEARISH ∧ indexAlignedBear then .BEARISH
  else .NEUTRAL

-- ------------------------------------------------------------------
-- Backtest simulator (`src/sim/backtestEngine.ts`, `simulateStrategy`)
-- ------------------------------------------------------------------

/-- `Candle` from `src/sim/backtestEngine.ts` (fields `open`/`high`/`low`/
`close`/`volume` shortened to `o`/`h`/`l`/`c`/`v`). -/
structure Candle where
  ticker : String
  ts : ℤ
  o : ℚ
  h : ℚ
  l : ℚ
  c : ℚ
  v : ℚ
deriving DecidableEq

/-- The interface of `src/market/time.ts` consumed by the backtest engine
(`nyDayKey`, the `p.hh * 60 + p.mm` minutes from `nyPartsFromMs`, and
`isRegularSessionNY`).  The engine is verified for an arbitrary `TimeEnv`
and run concretely at `nyTime` below. -/
structure TimeEnv where
  dayKey : ℤ → ℤ
  minutesOfDay : ℤ → ℤ
  isRegularSession : ℤ → Bool

/-- Days-from-civil (proleptic Gregorian): the epoch day number of the date
`y-m-d` (so `daysFromCivil 1970 1 1 = 0`).  Used to locate the DST
transition Sundays of `src/market/time.ts`'s `America/New_York` zone. -/
def daysFromCivil (y m d : ℤ) : ℤ :=
  let yy := if m ≤ 2 then y - 1 else y
  let era := yy.fdiv 400
  let yoe := yy - era * 400
  let doy := (153 * (if 2 < m then m - 3 else m + 9) + 2) / 5 + d - 1
  let doe := yoe * 365 + yoe / 4 - yoe / 100 + doy
  era * 146097 + doe - 719468

/-- Civil-from-days (proleptic Gregorian): the `(y, m, d)` date of an epoch
day number; inverse of `daysFromCivil`. -/
def civilFromDays (z : ℤ) : ℤ × ℤ × ℤ :=
  let z' := z + 719468
  let era := z'.fdiv 146097
  let doe := z' - era * 146097
  let yoe := (doe - doe / 1460 + doe / 36524 - doe / 146096) / 365
  let y := yoe + era * 400
  let doy := doe - (365 * yoe + yoe / 4 - yoe / 100)
  let mp := (5 * doy + 2) / 153
  let d := doy - (153 * mp + 2) / 5 + 1
  let m := if mp < 10 then mp + 3 else mp - 9
  (if m ≤ 2 then y + 1 else y, m, d)

/-- The epoch day of the second Sunday of March of year `y` — the US DST
start day under the rule in force since 2007. -/
def secondSundayOfMarch (y : ℤ) : ℤ :=
  let m1 := daysFromCivil y 3 1
  m1 + (7 - (m1 + 4).fmod 7).fmod 7 + 7

/-- The epoch day of the first Sunday of November of year `y` — the US DST
end day under the rule in force since 2007. -/
def firstSundayOfNovember (y : ℤ) : ℤ :=
  let n1 := daysFromCivil y 11 1
  n1 + (7 - (n1 + 4).fmod 7).fmod 7

/-- The `America/New_York` UTC offset, in milliseconds, at UTC instant `ms`:
EDT (UTC−4) from 02:00 EST on the second Sunday of March — 07:00 UTC — until
02:00 EDT on the first Sunday of November — 06:00 UTC — and EST (UTC−5)
otherwise, per the US Eastern rule in force since 2007.  This is the offset
the `Intl.DateTimeFormat` formatter of `src/market/time.ts`, pinned to the
`America/New_York` time zone, applies to every instant of that era.  (Both
transitions sit months away from the year boundary, so reading the year off
the UTC date is exact.) -/
def nyUtcOffsetMs (ms : ℤ) : ℤ :=
  let y := (civilFromDays (ms.fdiv 86400000)).1
  let dstStart := secondSundayOfMarch y * 86400000 + 7 * 3600000
  let dstEnd := firstSundayOfNovember y * 86400000 + 6 * 3600000
  if dstStart ≤ ms ∧ ms < dstEnd then -4 * 3600000 else -5 * 3600000

/-- `NYParts` from `src/market/time.ts`. -/
structure NYParts where
  y : ℤ
  m : ℤ
  d : ℤ
  hh : ℤ
  mm : ℤ
deriving DecidableEq

/-- `nyPartsFromMs` from `src/market/time.ts`: the `America/New_York`
wall-clock parts (year, month, day, hour, minute) of UTC instant `ms`; the
source reads them off an `Intl.DateTimeFormat` formatter pinned to that
time zone, realised here by shifting `ms` by `nyUtcOffsetMs` and splitting
the local instant into a civil date and a time of day. -/
def nyPartsFromMs (ms : ℤ) : NYParts :=
  let loc := ms + nyUtcOffsetMs ms
  let day := loc.fdiv 86400000
  let rem := loc.fmod 86400000
  let c := civilFromDays day
  { y := c.1, m := c.2.1, d := c.2.2,
    hh := rem / 3600000, mm := rem % 3600000 / 60000 }

/-- `nyDayKey` from `src/market/time.ts`.  The source returns the string
`"YYYY-MM-DD"` built from `nyPartsFromMs`; here the same digits are read as
the integer `y * 10000 + m * 100 + d`, an encoding under which two instants
receive equal keys exactly when the source gives them equal strings. -/
def nyDayKey (ms : ℤ) : ℤ :=
  let p := nyPartsFromMs ms
  p.y * 10000 + p.m * 100 + p.d

/-- `isRegularSessionNY` from `src/market/time.ts`: the NY wall-clock minute
of day lies in `[9*60+30, 16*60)`. -/
def isRegularSessionNY (ms : ℤ) : Bool :=
  let p := nyPartsFromMs ms
  decide (9 * 60 + 30 ≤ p.hh * 60 + p.mm ∧ p.hh * 60 + p.mm < 16 * 60)

/-- The concrete `TimeEnv` packaging exactly the three uses the backtest
engine makes of `src/market/time.ts`: `nyDayKey`, the `p.hh * 60 + p.mm`
minutes computed from `nyPartsFromMs` (lines 592-600 of
`src/sim/backtestEngine.ts`), and `isRegularSessionNY`. -/
def nyTime : TimeEnv :=
  { dayKey := nyDayKey,
    minutesOfDay := fun ts =>
      (nyPartsFromMs ts).hh * 60 + (nyPartsFromMs ts).mm,
    isRegularSession := isRegularSessionNY }

/-- `DailyLevels` from `src/sim/backtestEngine.ts`. -/
structure DailyLevels where
  day : ℤ
  preHigh : Option ℚ
  preLow : Option ℚ
  priorRthHigh : Option ℚ
  priorRthLow : Option ℚ
deriving DecidableEq

/-- `ResolvedLevel`; `levelId` is the `String(L.levelId || L.key)` identifier
(always set at construction in the engine). -/
structure ResolvedLevel where
  key : LevelKey
  price : ℚ
  levelId : String
deriving DecidableEq

/-- `LevelSourcePreset`. -/
inductive LevelSourcePreset
  | DAILY
  | REPEAT
  | BOTH
deriving DecidableEq

/-- `EntryMode`. -/
inductive EntryMode
  | BREAK
  | BREAK_RETEST
  | RETEST
deriving DecidableEq

/-- `RepeatSrConfig`. -/
structure RepeatSrConfig where
  tolerancePct : ℚ
  touchCount : ℕ
  lookbackBars : ℕ
deriving DecidableEq

/-- A repeat-S/R cluster under construction (`{ price, touches }`). -/
structure RCluster where
  price : ℚ
  touches : ℕ
deriving DecidableEq

/-- A qualified repeat level. -/
structure RepeatLevel where
  id : String
  price : ℚ
  touches : ℕ
deriving DecidableEq

/-- `tolAbs` inside `computeRepeatLevelsNoLookahead`:
`max(1e-9, |price| * tolerancePct / 100)`. -/
def tolAbs (tolPct price : ℚ) : ℚ :=
  max (1 / 10 ^ 9) (|price| * tolPct / 100)

/-- The nearest-cluster search of `addTouch`: the index of the cluster within
tolerance minimising the distance to `px` (first wins ties, `none` when no
cluster is within tolerance). -/
def findBest (tolPct px : ℚ) (levels : List RCluster) : Option ℕ :=
  ((levels.foldl
      (fun (acc : ℕ × Option (ℕ × ℚ)) L =>
        let dist := |px - L.price|
        let better : Bool :=
          decide (dist ≤ tolAbs tolPct L.price) &&
            (match acc.2 with
             | none => true
             | some bd => decide (dist < bd.2))
        (acc.1 + 1, if better then some (acc.1, dist) else acc.2))
      (0, none)).2).map (fun bd => bd.1)

/-- `addTouch`: skip non-positive prices; merge into the nearest cluster
within tolerance by incremental averaging, else start a new cluster. -/
def addTouch (tolPct : ℚ) (levels : List RCluster) (px : ℚ) : List RCluster :=
  if px ≤ 0 then levels
  else
    match findBest tolPct px levels with
    | some j =>
      match levels.get? j with
      | some L =>
        levels.set j
          { price := (L.price * L.touches + px) / (L.touches + 1),
            touches := L.touches + 1 }
      | none => levels
    | none => levels ++ [{ price := px, touches := 1 }]

/-- The cluster accumulation over a candle window: regular-session candles
contribute a high touch then a low touch. -/
def touchClusters (tenv : TimeEnv) (tolPct : ℚ) (w : List Candle) :
    List RCluster :=
  w.foldl
    (fun levels cnd =>
      if tenv.isRegularSession cnd.ts then
        addTouch tolPct (addTouch tolPct levels cnd.h) cnd.l
      else levels)
    []

/-- JS `x.toFixed(2)` for the repeat-level id (ties modelled as
round-half-up; the string only serves as a stable identifier). -/
def ratToFixed2 (q : ℚ) : String :=
  let n : ℤ := round (q * 100)
  let sign := if n < 0 then "-" else ""
  let m := n.natAbs
  sign ++ toString (m / 100) ++ "." ++
    (if m % 100 < 10 then "0" else "") ++ toString (m % 100)

/-- The qualification comparator `(a, b) => b.touches - a.touches ||
a.price - b.price` as a total boolean order. -/
def repeatLE (a b : RCluster) : Bool :=
  b.touches < a.touches || (a.touches = b.touches && a.price ≤ b.price)

/-- `computeRepeatLevelsNoLookahead` applied to the window of prior candles:
length guard, clustering, qualification by touch count, ordering, cap at 12
and id assignment. -/
def repeatLevelsOfWindow (tenv : TimeEnv) (cfg : RepeatSrConfig)
    (w : List Candle) : List RepeatLevel :=
  if w.length < max 5 cfg.touchCount then []
  else
    ((((touchClusters tenv cfg.tolerancePct w).filter
          (fun L => cfg.touchCount ≤ L.touches)).mergeSort
        (repeatLE · ·)).take 12).enum.map
      (fun p =>
        { id := "RR_" ++ toString p.1 ++ "_" ++ ratToFixed2 p.2.price,
          price := p.2.price, touches := p.2.touches })

/-- The window `[i - lookbackBars, i-1]` of `computeRepeatLevelsNoLookahead`,
extracted from the prefix of candles strictly before `i`. -/
def repeatFromPrefix (tenv : TimeEnv) (cfg : RepeatSrConfig)
    (pre : List Candle) : List RepeatLevel :=
  repeatLevelsOfWindow tenv cfg (pre.drop (pre.length - cfg.lookbackBars))

/-- `computeR`: risk multiple of an exit; `0` for non-positive risk. -/
def computeR (dir : TradeDir) (entry stop exit : ℚ) : ℚ :=
  let risk := match dir with | .LONG => entry - stop | .SHORT => stop - entry
  if risk ≤ 0 then 0
  else (match dir with | .LONG => exit - entry | .SHORT => entry - exit) / risk

/-- `resolveDailyLevels`: the non-null PMH/PML/PDH/PDL levels of the day, in
that order. -/
def resolveDailyLevels (dailyLevels : ℤ → Option DailyLevels) (day : ℤ) :
    List ResolvedLevel :=
  match dailyLevels day with
  | none => []
  | some d =>
    (match d.preHigh with
     | some p => [{ key := .PMH, price := p, levelId := "PMH" }]
     | none => []) ++
    (match d.preLow with
     | some p => [{ key := .PML, price := p, levelId := "PML" }]
     | none => []) ++
    (match d.priorRthHigh with
     | some p => [{ key := .PDH, price := p, levelId := "PDH" }]
     | none => []) ++
    (match d.priorRthLow with
     | some p => [{ key := .PDL, price := p, levelId := "PDL" }]
     | none => [])

/-- The per-step context of `simulateStrategy`: everything except the candle
list (whose accesses are made explicit per step). -/
structure StepCtx where
  ticker : String
  dailyLevels : ℤ → Option DailyLevels
  levelSource : LevelSourcePreset
  entryMode : EntryMode
  repeatSr : RepeatSrConfig
  tenv : TimeEnv

/-- `resolveLevelsForCandle`: daily levels and/or repeat levels from the
prior-candle prefix. -/
def resolveLevelsForCandle (ctx : StepCtx) (pre : List Candle) (day : ℤ) :
    List ResolvedLevel :=
  (if ctx.levelSource = .DAILY ∨ ctx.levelSource = .BOTH then
    resolveDailyLevels ctx.dailyLevels day
   else []) ++
  (if ctx.levelSource = .REPEAT ∨ ctx.levelSource = .BOTH then
    (repeatFromPrefix ctx.tenv ctx.repeatSr pre).map
      (fun L => { key := .RR, price := L.price, levelId := L.id })
   else [])

/-- `isAfter330` (15:30 New York). -/
def isAfter330 (tenv : TimeEnv) (ts : ℤ) : Bool :=
  decide (930 ≤ tenv.minutesOfDay ts)

/-- `isAtOrAfter355` (15:55 New York). -/
def isAtOrAfter355 (tenv : TimeEnv) (ts : ℤ) : Bool :=
  decide (955 ≤ tenv.minutesOfDay ts)

/-- `tolAbsForPrice`: the `BREAK`-mode stop padding, re-using the repeat
tolerance (`repeatSr.tolerancePct || 0.05`). -/
def tolAbsForPrice (cfg : RepeatSrConfig) (price : ℚ) : ℚ :=
  let pct := if cfg.tolerancePct = 0 then 1 / 20 else cfg.tolerancePct
  max (1 / 10 ^ 9) (|price| * pct / 100)

/-- `SetupState` of the `BREAK_RETEST` state machine.  The source initialises
`retestExtreme` to `NaN`; it is always overwritten at the `BROKE → RETEST`
transition before being read, and `0` stands in for `NaN`. -/
inductive SetupPhase
  | IDLE
  | BROKE
  | RETEST
deriving DecidableEq

structure SetupState where
  phase : SetupPhase
  breakIdx : ℤ
  retestIdx : ℤ
  retestExtreme : ℚ
deriving DecidableEq

def initSetup : SetupState :=
  { phase := .IDLE, breakIdx := -1, retestIdx := -1, retestExtreme := 0 }

/-- The `{ long, short }` pair of `state[day][levelId]`. -/
structure SetupPair where
  long : SetupState
  short : SetupState
deriving DecidableEq

/-- The internal `openTrade` record.  `decDay` is ghost bookkeeping: the NY
day key of the decision bar — the key under which `tradedLevelByDay` records
the trade (the source computes it as `day` at the decision site). -/
structure OpenTrade where
  dir : TradeDir
  entryTs : ℤ
  entryPrice : ℚ
  stop : ℚ
  target : ℚ
  levelKey : LevelKey
  levelPrice : ℚ
  levelId : String
  entryIdx : ℕ
  decDay : ℤ
deriving DecidableEq

/-- A `SimTrade` paired with ghost bookkeeping: the index of its entry bar,
the index of its exit bar, and the NY day key of its decision bar. -/
structure GTrade where
  t : SimTrade
  entryIdx : ℕ
  exitIdx : ℕ
  day : ℤ
deriving DecidableEq

/-- The mutable state of the `simulateStrategy` loop: emitted trades, the
open trade and its held-bar count, the per-day traded-level set (as a list of
`(day, levelId)` pairs) and the `BREAK_RETEST` setup states (keyed by
`(day, levelId)`, defaulting to idle pairs, which matches
`ensureLevelState`). -/
structure SimState where
  trades : List GTrade
  openTrade : Option OpenTrade
  openBarsHeld : ℕ
  traded : List (ℤ × String)
  lvlState : List ((ℤ × String) × SetupPair)
deriving DecidableEq

def initSimState : SimState :=
  { trades := [], openTrade := none, openBarsHeld := 0, traded := [],
    lvlState := [] }

def getLS (σ : SimState) (day : ℤ) (lid : String) : SetupPair :=
  ((σ.lvlState.find? (fun p => p.1 = (day, lid))).map (fun p => p.2)).getD
    ⟨initSetup, initSetup⟩

def setLS (σ : SimState) (day : ℤ) (lid : String) (v : SetupPair) : SimState :=
  { σ with lvlState :=
      ((day, lid), v) :: σ.lvlState.filter (fun p => ¬ p.1 = (day, lid)) }

/-- The trade record pushed at exit (`trades.push({...})`), with ghost entry,
exit and decision-day data carried along. -/
def pushTrade (ctx : StepCtx) (o : OpenTrade) (exitTs : ℤ) (exitPrice : ℚ)
    (reason : ExitReason) (bh : ℕ) (exitIdx : ℕ) : GTrade :=
  { t := { ticker := ctx.ticker, dir := o.dir, levelKey := o.levelKey,
           levelPrice := o.levelPrice, entryTs := o.entryTs,
           entryPrice := o.entryPrice, stopPrice := o.stop,
           targetPrice := o.target, exitTs := exitTs, exitPrice := exitPrice,
           exitReason := reason,
           rMult := computeR o.dir o.entryPrice o.stop exitPrice,
           barsHeld := bh, metaLevelId := o.levelId },
    entryIdx := o.entryIdx, exitIdx := exitIdx, day := o.decDay }

/-- The stop condition on a bar:
`dir === "LONG" ? c.low <= stop : c.high >= stop`. -/
def stopHitB (o : OpenTrade) (c : Candle) : Bool :=
  match o.dir with
  | .LONG => decide (c.l ≤ o.stop)
  | .SHORT => decide (o.stop ≤ c.h)

/-- The target condition on a bar:
`dir === "LONG" ? c.high >= target : c.low <= target`. -/
def tgtHitB (o : OpenTrade) (c : Candle) : Bool :=
  match o.dir with
  | .LONG => decide (o.target ≤ c.h)
  | .SHORT => decide (c.l ≤ o.target)

/-- Open-trade management at the current candle (backtestEngine.ts lines
622-685): stop/target with the stop-first tie-break, then the 15:55 EOD
force-close, else keep holding. -/
def manageOpen (ctx : StepCtx) (i : ℕ) (c : Candle) (σ : SimState) :
    SimState :=
  match σ.openTrade with
  | none => σ
  | some o =>
    let bh := σ.openBarsHeld + 1
    let stopHit := stopHitB o c
    let tgtHit := tgtHitB o c
    if stopHit || tgtHit then
      let exitPrice := if stopHit then o.stop else o.target
      let reason : ExitReason := if stopHit then .STOP else .TARGET
      { σ with
        trades := σ.trades ++ [pushTrade ctx o c.ts exitPrice reason bh i],
        openTrade := none, openBarsHeld := 0 }
    else if isAtOrAfter355 ctx.tenv c.ts then
      { σ with
        trades := σ.trades ++ [pushTrade ctx o c.ts c.c .EOD bh i],
        openTrade := none, openBarsHeld := 0 }
    else { σ with openBarsHeld := bh }

/-- Entry attempt at the next candle's open (`entryIdx = i + 1`), guarded by
the fill bar being a regular-session bar before 15:30 and by positive risk.
`entryC?` is `candles[i+1]` (`none` past the end). -/
def tryOpen (ctx : StepCtx) (entryC? : Option Candle) (i : ℕ) (day : ℤ)
    (L : ResolvedLevel) (lid : String) (dir : TradeDir) (stop : ℚ)
    (σ : SimState) : SimState :=
  match entryC? with
  | none => σ
  | some entryC =>
    if ctx.tenv.isRegularSession entryC.ts && !(isAfter330 ctx.tenv entryC.ts)
    then
      let entryPrice := entryC.o
      let risk :=
        match dir with
        | .LONG => entryPrice - stop
        | .SHORT => stop - entryPrice
      if 0 < risk then
        { σ with
          openTrade := some
            { dir := dir, entryTs := entryC.ts, entryPrice := entryPrice,
              stop := stop,
              target :=
                match dir with
                | .LONG => entryPrice + 2 * risk
                | .SHORT => entryPrice - 2 * risk,
              levelKey := L.key, levelPrice := L.price, levelId := lid,
              entryIdx := i + 1, decDay := day },
          openBarsHeld := 0,
          traded := (day, lid) :: σ.traded }
      else σ
    else σ

/-- `RETEST` entry mode for one level (backtestEngine.ts lines 703-766). -/
def evalRetestMode (ctx : StepCtx) (entryC? : Option Candle) (i : ℕ)
    (day : ℤ) (L : ResolvedLevel) (lid : String) (c : Candle) (σ : SimState) :
    SimState :=
  let σ1 :=
    if c.l ≤ L.price ∧ L.price < c.c then
      tryOpen ctx entryC? i day L lid .LONG c.l σ
    else σ
  if σ1.openTrade.isSome then σ1
  else if L.price ≤ c.h ∧ c.c < L.price then
    tryOpen ctx entryC? i day L lid .SHORT c.h σ1
  else σ1

/-- `BREAK` entry mode for one level (backtestEngine.ts lines 772-835). -/
def evalBreakMode (ctx : StepCtx) (entryC? : Option Candle) (i : ℕ)
    (day : ℤ) (L : ResolvedLevel) (lid : String) (c : Candle) (σ : SimState) :
    SimState :=
  let σ1 :=
    if L.price < c.c then
      tryOpen ctx entryC? i day L lid .LONG
        (L.price - tolAbsForPrice ctx.repeatSr L.price) σ
    else σ
  if σ1.openTrade.isSome then σ1
  else if c.c < L.price then
    tryOpen ctx entryC? i day L lid .SHORT
      (L.price + tolAbsForPrice ctx.repeatSr L.price) σ1
  else σ1

/-- The long `BREAK_RETEST` state machine for one level (backtestEngine.ts
lines 842-898). -/
def evalBRLong (ctx : StepCtx) (entryC? : Option Candle) (i : ℕ) (day : ℤ)
    (L : ResolvedLevel) (lid : String) (c : Candle) (σ : SimState) :
    SimState :=
  let pair := getLS σ day lid
  let st := pair.long
  match st.phase with
  | .IDLE =>
    if L.price < c.c then
      setLS σ day lid
        { pair with long :=
            { phase := .BROKE, breakIdx := (i : ℤ), retestIdx := -1,
              retestExtreme := 0 } }
    else σ
  | .BROKE =>
    if c.l ≤ L.price then
      setLS σ day lid
        { pair with long :=
            { st with phase := .RETEST, retestIdx := (i : ℤ),
                      retestExtreme := c.l } }
    else σ
  | .RETEST =>
    if L.price < c.c then
      let σ1 := tryOpen ctx entryC? i day L lid .LONG st.retestExtreme σ
      setLS σ1 day lid { pair with long := { st with phase := .IDLE } }
    else
      setLS σ day lid
        { pair with long := { st with retestExtreme := min st.retestExtreme c.l } }

/-- The short `BREAK_RETEST` state machine for one level (backtestEngine.ts
lines 902-954). -/
def evalBRShort (ctx : StepCtx) (entryC? : Option Candle) (i : ℕ) (day : ℤ)
    (L : ResolvedLevel) (lid : String) (c : Candle) (σ : SimState) :
    SimState :=
  let pair := getLS σ day lid
  let st := pair.short
  match st.phase with
  | .IDLE =>
    if c.c < L.price then
      setLS σ day lid
        { pair with short :=
            { phase := .BROKE, breakIdx := (i : ℤ), retestIdx := -1,
              retestExtreme := 0 } }
    else σ
  | .BROKE =>
    if L.price ≤ c.h then
      setLS σ day lid
        { pair with short :=
            { st with phase := .RETEST, retestIdx := (i : ℤ),
                      retestExtreme := c.h } }
    else σ
  | .RETEST =>
    if c.c < L.price then
      let σ1 := tryOpen ctx entryC? i day L lid .SHORT st.retestExtreme σ
      setLS σ1 day lid { pair with short := { st with phase := .IDLE } }
    else
      setLS σ day lid
        { pair with short := { st with retestExtreme := max st.retestExtreme c.h } }

/-- Setup evaluation for one level (the body of the `for (const L of levels)`
loop, after the open-trade and 15:30 guards): skip levels already traded
today, then dispatch on the entry mode; in `BREAK_RETEST` the short machine
only runs when the long machine did not open a trade. -/
def evalLevel (ctx : StepCtx) (entryC? : Option Candle) (i : ℕ) (day : ℤ)
    (c : Candle) (σ : SimState) (L : ResolvedLevel) : SimState :=
  let lid := L.levelId
  if (day, lid) ∈ σ.traded then σ
  else
    match ctx.entryMode with
    | .RETEST => evalRetestMode ctx entryC? i day L lid c σ
    | .BREAK => evalBreakMode ctx entryC? i day L lid c σ
    | .BREAK_RETEST =>
      let σ1 := evalBRLong ctx entryC? i day L lid c σ
      if σ1.openTrade.isSome then σ1
      else evalBRShort ctx entryC? i day L lid c σ1

/-- The level loop with its `break` once a trade opens. -/
def evalLevels (ctx : StepCtx) (entryC? : Option Candle) (i : ℕ) (day : ℤ)
    (c : Candle) : List ResolvedLevel → SimState → SimState
  | [], σ => σ
  | L :: rest, σ =>
    let σ1 := evalLevel ctx entryC? i day c σ L
    if σ1.openTrade.isSome then σ1
    else evalLevels ctx entryC? i day c rest σ1

/-- One iteration of the `simulateStrategy` loop at index `i`, candle `c`.
All candle-list accesses are explicit: `pre` is `candles.take i` (for repeat
levels) and `entryC?` is `candles[i+1]` (for fills).  Non-regular-session
candles and candles with no resolved levels are skipped entirely — including
open-trade management. -/
def stepCore (ctx : StepCtx) (pre : List Candle) (entryC? : Option Candle)
    (i : ℕ) (c : Candle) (σ : SimState) : SimState :=
  if ctx.tenv.isRegularSession c.ts = false then σ
  else
    let day := ctx.tenv.dayKey c.ts
    let levels := resolveLevelsForCandle ctx pre day
    if levels.isEmpty then σ
    else
      let σ1 := manageOpen ctx i c σ
      if σ1.openTrade.isSome then σ1
      else if isAfter330 ctx.tenv c.ts then σ1
      else evalLevels ctx entryC? i day c levels σ1

/-- The argument record of `simulateStrategy` (the unused `vwap`/`timeframe`
arguments of the TS signature are omitted — the function body never reads
them). -/
structure SimArgs where
  ticker : String
  candles : List Candle
  dailyLevels : ℤ → Option DailyLevels
  levelSource : LevelSourcePreset
  entryMode : EntryMode
  repeatSr : RepeatSrConfig
  tenv : TimeEnv

def SimArgs.ctx (args : SimArgs) : StepCtx :=
  { ticker := args.ticker, dailyLevels := args.dailyLevels,
    levelSource := args.levelSource, entryMode := args.entryMode,
    repeatSr := args.repeatSr, tenv := args.tenv }

/-- The state after processing the first `n` candles of the run. -/
def runSim (args : SimArgs) : ℕ → SimState
  | 0 => initSimState
  | n + 1 =>
    match args.candles.get? n with
    | none => runSim args n
    | some c =>
      stepCore args.ctx (args.candles.take n) (args.candles.get? (n + 1)) n c
        (runSim args n)

/-- `simulateStrategy` with the ghost bookkeeping retained. -/
def simulateStrategyG (args : SimArgs) : List GTrade :=
  (runSim args args.candles.length).trades

/-- `simulateStrategy` (backtestEngine.ts lines 500-961): the emitted trade
list. -/
def simulateStrategy (args : SimArgs) : List SimTrade :=
  (simulateStrategyG args).map GTrade.t

/-- Setup-only transitions: the step touched at most `lvlState`. -/
def StableTOT (σ σ' : SimState) : Prop :=
  σ'.trades = σ.trades ∧ σ'.openTrade = σ.openTrade ∧
    σ'.openBarsHeld = σ.openBarsHeld ∧ σ'.traded = σ.traded

/-- A step that opened a trade at the decision bar `i` of day `day`, filling
at the candle `entryC?` (which must exist). -/
def OpensAt (entryC? : Option Candle) (i : ℕ) (day : ℤ) (σ σ' : SimState) :
    Prop :=
  σ'.trades = σ.trades ∧
  ∃ o entryC, entryC? = some entryC ∧ σ'.openTrade = some o ∧
    σ'.openBarsHeld = 0 ∧ σ'.traded = (day, o.levelId) :: σ.traded ∧
    o.entryIdx = i + 1 ∧ o.decDay = day ∧
    o.entryTs = entryC.ts ∧ o.entryPrice = entryC.o ∧
    (day, o.levelId) ∉ σ.traded

/-- The master invariant of the `simulateStrategy` loop after `n` processed
candles: every emitted trade was decided on some bar `entryIdx - 1`, filled
at the open of the bar `entryIdx`, closed on a later processed bar, recorded
under its decision day in `traded`; trades are chronologically disjoint by
bar index; `(day, levelId)` pairs are pairwise distinct; the open trade (if
any) satisfies the same entry facts and postdates every emitted trade. -/
structure SimInv (tenv : TimeEnv) (candles : List Candle) (n : ℕ)
    (σ : SimState) : Prop where
  trades_entry : ∀ g ∈ σ.trades,
    1 ≤ g.entryIdx ∧ g.entryIdx ≤ g.exitIdx ∧ g.exitIdx < n ∧
    (∃ ec, candles.get? g.entryIdx = some ec ∧
      g.t.entryTs = ec.ts ∧ g.t.entryPrice = ec.o) ∧
    (∃ xc, candles.get? g.exitIdx = some xc ∧ g.t.exitTs = xc.ts) ∧
    (∃ dc, candles.get? (g.entryIdx - 1) = some dc ∧
      g.day = tenv.dayKey dc.ts) ∧
    (g.day, g.t.metaLevelId) ∈ σ.traded
  trades_order : σ.trades.Pairwise (fun g1 g2 => g1.exitIdx < g2.entryIdx)
  pairs_nodup : (σ.trades.map (fun g => (g.day, g.t.metaLevelId))).Nodup
  open_inv : ∀ o, σ.openTrade = some o →
    1 ≤ o.entryIdx ∧ o.entryIdx ≤ n ∧
    (∃ ec, candles.get? o.entryIdx = some ec ∧
      o.entryTs = ec.ts ∧ o.entryPrice = ec.o) ∧
    (∃ dc, candles.get? (o.entryIdx - 1) = some dc ∧
      o.decDay = tenv.dayKey dc.ts) ∧
    (∀ g ∈ σ.trades, g.exitIdx < o.entryIdx) ∧
    (o.decDay, o.levelId) ∈ σ.traded ∧
    (o.decDay, o.levelId) ∉ σ.trades.map (fun g => (g.day, g.t.metaLevelId))

-- ------------------------------------------------------------------
-- Concrete runs of the simulator (witnesses and counterexamples)
-- ------------------------------------------------------------------

/-- A one-minute-scale test candle for the concrete runs. -/
def mkCandle (ts : ℤ) (o h l c : ℚ) : Candle :=
  { ticker := "TST", ts := ts, o := o, h := h, l := l, c := c, v := 1000 }

/-- Daily levels for the concrete runs: a single premarket high at 100 on
NY day 2024-01-10 (key `20240110`). -/
def demoLevels : ℤ → Option DailyLevels := fun d =>
  if d = 20240110 then
    some { day := 20240110, preHigh := some 100, preLow := none,
           priorRthHigh := none, priorRthLow := none }
  else none

def demoSr : RepeatSrConfig :=
  { tolerancePct := 1 / 20, touchCount := 3, lookbackBars := 150 }

/-- A three-candle `RETEST`-mode run on 2024-01-10 (a winter Wednesday, so
NY time is EST = UTC−5): bar 0 (`1704898800000` = 15:00 UTC = 10:00 NY)
signals a long retest of `PMH = 100`, bar 1 (10:05 NY) fills at its open 102
(stop 99, target 108), and bar 2 (10:10 NY) hits the stop. -/
def wArgs : SimArgs :=
  { ticker := "TST",
    candles := [mkCandle 1704898800000 (201/2) 101 99 101,
                mkCandle 1704899100000 102 102 (203/2) (203/2),
                mkCandle 1704899400000 (199/2) 103 98 100],
    dailyLevels := demoLevels, levelSource := .DAILY, entryMode := .RETEST,
    repeatSr := demoSr, tenv := nyTime }

/-- The open trade of the concrete runs after bar 0's decision. -/
def openDemo : OpenTrade :=
  { dir := .LONG, entryTs := 1704899100000, entryPrice := 102, stop := 99,
    target := 108, levelKey := .PMH, levelPrice := 100, levelId := "PMH",
    entryIdx := 1, decDay := 20240110 }

/-- The trade emitted by `wArgs` (stop hit on bar 2). -/
def wTrade : GTrade :=
  { t := { ticker := "TST", dir := .LONG, levelKey := .PMH, levelPrice := 100,
           entryTs := 1704899100000, entryPrice := 102, stopPrice := 99,
           targetPrice := 108, exitTs := 1704899400000, exitPrice := 99,
           exitReason := .STOP, rMult := -1, barsHeld := 2,
           metaLevelId := "PMH" },
    entryIdx := 1, exitIdx := 2, day := 20240110 }

/-- Like `wArgs` but bar 2 satisfies both the stop and the target condition
(low 98 ≤ 99 and high 109 ≥ 108). -/
def bothArgs : SimArgs :=
  { wArgs with
    candles := [mkCandle 1704898800000 (201/2) 101 99 101,
                mkCandle 1704899100000 102 102 (203/2) (203/2),
                mkCandle 1704899400000 (199/2) 109 98 100] }

/-- Like `wArgs` but bar 2 sits after hours (`1704922200000` = 21:30 UTC =
16:30 NY, minute 990 of the NY day) while its range satisfies both the stop
and the target condition. -/
def skipArgs : SimArgs :=
  { wArgs with
    candles := [mkCandle 1704898800000 (201/2) 101 99 101,
                mkCandle 1704899100000 102 102 (203/2) (203/2),
                mkCandle 1704922200000 100 120 90 95] }

-- ------------------------------------------------------------------
-- Theorems
-- ------------------------------------------------------------------

lemma equityFold_drawdown_nonpos (l : List SimTrade) (e p : ℚ) :
    ∀ pt ∈ equityFold l e p, pt.drawdown ≤ 0 := by
  induction l generalizing e p with
  | nil => simp [equityFold]
  | cons t rest ih =>
    intro pt hpt
    simp only [equityFold, List.mem_cons] at hpt
    rcases hpt with h | h
    · subst h
      simp only [sub_nonpos]
      exact le_max_right _ _
    · exact ih _ _ pt h

lemma equityFold_last (l : List SimTrade) (e p : ℚ) (h : l ≠ []) :
    ∃ pt, (equityFold l e p).getLast? = some pt ∧
      pt.equity = e + (l.map SimTrade.rMult).sum := by
  induction l generalizing e p with
  | nil => exact absurd rfl h
  | cons t rest ih =>
    cases rest with
    | nil =>
      refine ⟨_, rfl, ?_⟩
      simp [equityFold]
    | cons u rest' =>
      obtain ⟨pt, hlast, hsum⟩ := ih (e + t.rMult) (max p (e + t.rMult)) (by simp)
      refine ⟨pt, ?_, ?_⟩
      · simpa [equityFold] using hlast
      · simp only [List.map_cons, List.sum_cons] at hsum ⊢
        linarith

lemma equityFold_ts_map (l : List SimTrade) (e p : ℚ) :
    (equityFold l e p).map EquityPoint.ts = l.map SimTrade.exitTs := by
  induction l generalizing e p with
  | nil => simp [equityFold]
  | cons t rest ih => simp [equityFold, ih]

/-- **C7** — `generateEquityCurve` orders the trades by exit time and
accumulates risk-multiples: the emitted timestamps are the exit timestamps in
non-decreasing order, the final equity equals the sum of all trades' `rMult`,
and at every point `drawdown = equity - running peak ≤ 0`. -/
theorem generateEquityCurve_spec (trades : List SimTrade) (hne : trades ≠ []) :
    (∃ pt, (generateEquityCurve trades).getLast? = some pt ∧
        pt.equity = (trades.map SimTrade.rMult).sum)
    ∧ (∀ pt ∈ generateEquityCurve trades, pt.drawdown ≤ 0)
    ∧ ((generateEquityCurve trades).map EquityPoint.ts).Pairwise (· ≤ ·) := by
  have hperm : (trades.mergeSort (tradeLE · ·)).Perm trades :=
    List.mergeSort_perm trades _
  refine ⟨?_, ?_, ?_⟩
  · have hne' : trades.mergeSort (tradeLE · ·) ≠ [] := by
      intro h0
      rw [h0] at hperm
      exact hne (List.Perm.nil_eq hperm).symm
    obtain ⟨pt, hlast, hsum⟩ := equityFold_last (trades.mergeSort (tradeLE · ·)) 0 0 hne'
    refine ⟨pt, hlast, ?_⟩
    rw [hsum, zero_add]
    exact (hperm.map SimTrade.rMult).sum_eq
  · exact equityFold_drawdown_nonpos _ 0 0
  · have hsorted : (trades.mergeSort (tradeLE · ·)).Pairwise (fun a b => tradeLE a b) := by
      have := @List.sorted_mergeSort SimTrade (tradeLE · ·)
        (fun a b c hab hbc => ?_) (fun a b => ?_) trades
      · exact this
      · simp only [tradeLE, Bool.or_eq_true, decide_eq_true_eq,
          Bool.and_eq_true] at hab hbc ⊢
        rcases hab with h1 | ⟨h1, h1'⟩ <;> rcases hbc with h2 | ⟨h2, h2'⟩
        · exact Or.inl (lt_trans h1 h2)
        · exact Or.inl (h2 ▸ h1)
        · exact Or.inl (h1 ▸ h2)
        · exact Or.inr ⟨h1.trans h2, le_trans h1' h2'⟩
      · simp only [tradeLE, Bool.or_eq_true, decide_eq_true_eq, Bool.and_eq_true]
        rcases lt_trichotomy a.exitTs b.exitTs with h | h | h
        · exact Or.inl (Or.inl h)
        · rcases le_total a.entryTs b.entryTs with h' | h'
          · exact Or.inl (Or.inr ⟨h, h'⟩)
          · exact Or.inr (Or.inr ⟨h.symm, h'⟩)
        · exact Or.inr (Or.inl h)
    rw [generateEquityCurve, equityFold_ts_map]
    refine (List.pairwise_map).2 (hsorted.imp ?_)
    intro a b hab
    simp only [tradeLE, Bool.or_eq_true, decide_eq_true_eq, Bool.and_eq_true] at hab
    rcases hab with h | ⟨h, _⟩
    · exact le_of_lt h
    · exact le_of_eq h

/-- Witness for `generateEquityCurve_spec` at a concrete two-trade list. -/
theorem generateEquityCurve_spec_witness :
    letI t1 : SimTrade :=
      { ticker := "AAA", dir := .LONG, levelKey := .PMH, levelPrice := 100,
        entryTs := 10, entryPrice := 101, stopPrice := 99, targetPrice := 105,
        exitTs := 20, exitPrice := 105, exitReason := .TARGET, rMult := 2,
        barsHeld := 2, metaLevelId := "PMH" }
    letI t2 : SimTrade :=
      { ticker := "AAA", dir := .LONG, levelKey := .PDH, levelPrice := 90,
        entryTs := 30, entryPrice := 91, stopPrice := 89, targetPrice := 95,
        exitTs := 40, exitPrice := 89, exitReason := .STOP, rMult := -1,
        barsHeld := 1, metaLevelId := "PDH" }
    (∃ pt, (generateEquityCurve [t1, t2]).getLast? = some pt ∧
        pt.equity = ([t1, t2].map SimTrade.rMult).sum)
    ∧ (∀ pt ∈ generateEquityCurve [t1, t2], pt.drawdown ≤ 0)
    ∧ ((generateEquityCurve [t1, t2]).map EquityPoint.ts).Pairwise (· ≤ ·) :=
  generateEquityCurve_spec _ (by decide)

/-- **C8** — `computeRS` returns `NONE` for neutral bias or insufficient bars;
under bullish bias it is `STRONG` iff the symbol's window return exceeds the
benchmark's (else `NONE`); under bearish bias it is `WEAK` iff the symbol's
window return is below the benchmark's (else `NONE`). -/
theorem computeRS_spec (sym spy : List Bar5) (w : ℕ) :
    (computeRS .NEUTRAL sym spy w = .NONE)
    ∧ (∀ d, sym.length < w + 1 ∨ spy.length < w + 1 →
        computeRS d sym spy w = .NONE)
    ∧ (w + 1 ≤ sym.length → w + 1 ≤ spy.length →
        (computeRS .BULLISH sym spy w = .STRONG ↔
          windowReturn spy w < windowReturn sym w)
        ∧ (computeRS .BULLISH sym spy w = .NONE ↔
          ¬ windowReturn spy w < windowReturn sym w)
        ∧ (computeRS .BEARISH sym spy w = .WEAK ↔
          windowReturn sym w < windowReturn spy w)
        ∧ (computeRS .BEARISH sym spy w = .NONE ↔
          ¬ windowReturn sym w < windowReturn spy w)) := by
  refine ⟨by simp [computeRS], ?_, ?_⟩
  · intro d hlt
    rcases hlt with h | h
    · cases d <;> simp [computeRS, h]
    · cases d <;> simp only [computeRS, h, if_true, reduceIte] <;> split <;> simp_all
  · intro hs hb
    have hs' : ¬ sym.length < w + 1 := not_lt.2 hs
    have hb' : ¬ spy.length < w + 1 := not_lt.2 hb
    refine ⟨?_, ?_, ?_, ?_⟩ <;>
      · simp only [computeRS, hs', hb', if_false, if_neg, reduceCtorEq]
        split <;> simp_all

/-- Witness for `computeRS_spec`: two three-bar series with window 2, bullish
bias, symbol outperforming. -/
theorem computeRS_spec_witness :
    letI mk : ℚ → Bar5 := fun c => { t := 0, o := c, h := c, l := c, c := c }
    letI sym : List Bar5 := [mk 100, mk 101, mk 110]
    letI spy : List Bar5 := [mk 50, mk 50, mk 51]
    (2 + 1 ≤ sym.length) ∧ (2 + 1 ≤ spy.length) ∧
      (computeRS .BULLISH sym spy 2 = .STRONG ↔
        windowReturn spy 2 < windowReturn sym 2) :=
  ⟨by decide, by decide, ((computeRS_spec _ _ 2).2.2 (by decide) (by decide)).1⟩

lemma alookup_adelete {α : Type} (l : List (String × α)) (k : String) :
    alookup (adelete l k) k = none := by
  unfold alookup adelete
  rw [List.find?_eq_none.2]
  · rfl
  · intro p hp
    have := (List.mem_filter.1 hp).2
    simpa using this

/-- **C6** — `finalize` returns `none` for an unknown alert id or a `LIVE`
session (leaving the state unchanged); for a non-`LIVE` session the first
call returns the finalized outcome and removes the session from the live
index, and a second call with the same id returns `none`. -/
theorem finalize_spec (st : TrackerState) (id : String) :
    (alookup st.sessionsById id = none → finalize st id = (none, st))
    ∧ (∀ s, alookup st.sessionsById id = some s → s.status = .LIVE →
        finalize st id = (none, st))
    ∧ (∀ s, alookup st.sessionsById id = some s → s.status ≠ .LIVE →
        (finalize st id).1 = some (mkOutcome s)
        ∧ alookup (finalize st id).2.sessionsById id = none
        ∧ finalize (finalize st id).2 id = (none, (finalize st id).2)) := by
  refine ⟨?_, ?_, ?_⟩
  · intro h
    simp [finalize, h]
  · intro s hs hlive
    simp [finalize, hs, hlive]
  · intro s hs hnl
    have hfin : finalize st id =
        (some (mkOutcome s),
          { sessionsById := adelete st.sessionsById id,
            sessionsBySymbol :=
              (st.sessionsBySymbol.map (fun p =>
                  if p.1 = s.symbol then
                    (p.1, p.2.filter (fun i => ¬ i = id))
                  else p)).filter
                (fun p => ¬ (p.1 = s.symbol ∧ p.2 = [])) }) := by
      simp [finalize, hs, hnl]
    refine ⟨by rw [hfin], ?_, ?_⟩
    · rw [hfin]
      exact alookup_adelete _ _
    · rw [hfin]
      simp [finalize, alookup_adelete]

/-- Witness for `finalize_spec`: one `STOPPED` session; the first call yields
the outcome and the second yields `none`. -/
theorem finalize_spec_witness :
    letI s : ActiveSession :=
      { alertId := "a1", symbol := "AAA", dir := .LONG, structureLevel := 100,
        entryTs := 0, entryRefPrice := 101, status := .STOPPED, endTs := 600000,
        maxHigh := 103, minLow := 99, mfeAbs := 2, maeAbs := 2,
        mfeTs := some 60000, stoppedOut := true, stopTs := some 600000,
        stopClose := some (199/2), barsToStop := some 2, bar5Count := 2,
        checkpointsMin := [1, 3, 5], returnsPct := [(1, 1)] }
    letI st : TrackerState :=
      { sessionsById := [("a1", s)], sessionsBySymbol := [("AAA", ["a1"])] }
    (finalize st "a1").1 = some (mkOutcome s)
    ∧ alookup (finalize st "a1").2.sessionsById "a1" = none
    ∧ finalize (finalize st "a1").2 "a1" = (none, (finalize st "a1").2) :=
  (finalize_spec _ "a1").2.2 _ (by rfl) (by decide)

/-- **C10** — the stop condition of `onBar5Close` is strict: for a `LIVE`
session, a close exactly at (or on the safe side of) the structure level only
counts the bar; only a close strictly below it (long) or strictly above it
(short) transitions the session to `STOPPED`, recording stop time, price and
bars-to-stop.  The last conjunct ties the per-session update to
`onBar5Close`. -/
theorem onBar5Close_stop_strict (s : ActiveSession) (ts : ℤ) (close : ℚ) :
    (s.dir = .LONG → s.structureLevel ≤ close →
        bar5Update s ts close = { s with bar5Count := s.bar5Count + 1 })
    ∧ (s.dir = .SHORT → close ≤ s.structureLevel →
        bar5Update s ts close = { s with bar5Count := s.bar5Count + 1 })
    ∧ (s.dir = .LONG → close < s.structureLevel →
        bar5Update s ts close =
          { s with bar5Count := s.bar5Count + 1, status := .STOPPED,
                   stoppedOut := true, stopTs := some ts,
                   stopClose := some close,
                   barsToStop := some (s.bar5Count + 1) })
    ∧ (s.dir = .SHORT → s.structureLevel < close →
        bar5Update s ts close =
          { s with bar5Count := s.bar5Count + 1, status := .STOPPED,
                   stoppedOut := true, stopTs := some ts,
                   stopClose := some close,
                   barsToStop := some (s.bar5Count + 1) })
    ∧ (∀ (st : TrackerState) (sym id : String),
        alookup st.sessionsBySymbol sym = some [id] →
        alookup st.sessionsById id = some s → s.status = .LIVE →
        onBar5Close st sym ts close =
          ((if (bar5Update s ts close).status = .STOPPED then [id] else []),
            { st with
              sessionsById := aset st.sessionsById id (bar5Update s ts close) })) := by
  refine ⟨?_, ?_, ?_, ?_, ?_⟩
  · intro hdir hle
    simp [bar5Update, hdir, not_lt.2 hle]
  · intro hdir hle
    simp [bar5Update, hdir, not_lt.2 hle]
  · intro hdir hlt
    simp [bar5Update, hdir, hlt]
  · intro hdir hlt
    simp [bar5Update, hdir, hlt]
  · intro st sym id hsym hid hlive
    simp only [onBar5Close, hsym, List.foldl_cons, List.foldl_nil, hid,
      hlive, if_true, reduceIte]
    split <;> simp_all

/-- Witness for `onBar5Close_stop_strict`: a long session with structure level
100 and an aggregated close exactly at 100 is not stopped; `onBar5Close` only
counts the bar. -/
theorem onBar5Close_stop_strict_witness :
    letI s : ActiveSession :=
      { alertId := "a2", symbol := "BBB", dir := .LONG, structureLevel := 100,
        entryTs := 0, entryRefPrice := 101, status := .LIVE, endTs := 0,
        maxHigh := 101, minLow := 100, mfeAbs := 0, maeAbs := 1,
        mfeTs := none, stoppedOut := false, stopTs := none, stopClose := none,
        barsToStop := none, bar5Count := 0, checkpointsMin := [1, 3, 5],
        returnsPct := [] }
    (s.structureLevel ≤ (100 : ℚ)) ∧
      bar5Update s 300000 100 = { s with bar5Count := s.bar5Count + 1 } :=
  ⟨by norm_num, (onBar5Close_stop_strict _ 300000 100).1 rfl (by norm_num)⟩

lemma onMinuteBarFire_state (ctx1 : SymbolContext) (now : ℤ) (symbol : String)
    (sdir : Direction) (slt : LevelType) (slp : ℚ)
    (marketDir : MarketDirection) (rs : RelativeStrength)
    (high low close : ℚ) (tap : TapState) :
    (onMinuteBarFire ctx1 now symbol sdir slt slp marketDir rs high low close
      tap).2.state = ctx1.state := by
  unfold onMinuteBarFire
  dsimp only
  split_ifs <;> rfl

lemma onMinuteBarFire_some (ctx1 : SymbolContext) (now : ℤ) (symbol : String)
    (sdir : Direction) (slt : LevelType) (slp : ℚ)
    (marketDir : MarketDirection) (rs : RelativeStrength)
    (high low close : ℚ) (tap : TapState) (a : Alert)
    (h : (onMinuteBarFire ctx1 now symbol sdir slt slp marketDir rs high low
      close tap).1 = some a) :
    (onMinuteBarFire ctx1 now symbol sdir slt slp marketDir rs high low close
      tap).2.tapState.map TapState.canFire = some false
    ∧ a.message = "A+ ENTRY (1m TAP)" := by
  unfold onMinuteBarFire at h ⊢
  dsimp only at h ⊢
  split_ifs at h ⊢
  all_goals first
    | exact Option.noConfusion h
    | (have h2 := Option.some.inj h
       subst h2
       exact ⟨rfl, rfl⟩)

/-- **C2 (counterexample)** — a 1-minute bar ranging `[99.95, 100.05]` around
the broken level fires an entry alert, but the symbol does **not** transition
to `Cooldown`: the state after the alert is still the same `Broken` state
(only the hysteresis flag is cleared).  `onMinuteBar` emits entry alerts via
`emit`, not via `emitAndCooldown`. -/
theorem onMinuteBar_entry_no_cooldown_cex :
    letI r := onMinuteBar tapCfg tapCtx 2000 "XYZ" 2000 (2001/20) (1999/20)
      (2001/20) .BULLISH
    (r.1.map Alert.message = some "A+ ENTRY (1m TAP)")
    ∧ r.2.state = .BROKEN .CALL .PMH 100 1000
    ∧ r.2.tapState =
        some { key := tapKey "XYZ" .CALL .PMH 100, canFire := false,
               tol := 1/10 } := by
  refine ⟨?_, ?_, ?_⟩ <;> decide

/-- **C2 (amended)** — when a 1-minute entry alert fires for a symbol in the
`Broken` state, the symbol *stays* `Broken` and only the hysteresis flag
`canFire` is cleared (no cooldown is started); an invalidation alert (via
`emitAndCooldown`) transitions the symbol to `Cooldown` until
`now + 2 × timeframeMin` minutes, and while in `Cooldown` with
`now ≤ untilBarTime` neither handler emits any alert. -/
theorem signalEngine_cooldown_spec (cfg : EngineConfig) (ctx : SymbolContext)
    (now : ℤ) (symbol : String) (ts : ℤ) (high low close : ℚ)
    (marketDir : MarketDirection) :
    ((onMinuteBar cfg ctx now symbol ts high low close marketDir).2.state =
        ctx.state
      ∧ ∀ a, (onMinuteBar cfg ctx now symbol ts high low close marketDir).1 =
          some a →
        (onMinuteBar cfg ctx now symbol ts high low close
            marketDir).2.tapState.map TapState.canFire = some false
        ∧ a.message = "A+ ENTRY (1m TAP)")
    ∧ (∀ rs dir level levelPrice msg,
        (emitAndCooldown cfg ctx now symbol marketDir rs dir level levelPrice
          close msg).2.state =
          .COOLDOWN (now + 2 * cfg.timeframeMin * 60000))
    ∧ (∀ u, ctx.state = .COOLDOWN u → now ≤ u →
        (onMinuteBar cfg ctx now symbol ts high low close marketDir).1 = none
        ∧ ∀ (spyBars5 symBars5 : List Bar5) (symLevels : Levels),
            (evaluateSymbol cfg ctx now symbol marketDir spyBars5 symBars5
              symLevels).1 = none) := by
  refine ⟨⟨?_, ?_⟩, ?_, ?_⟩
  · rw [onMinuteBar]
    split
    · dsimp only
      split_ifs <;> first | rfl | (rw [onMinuteBarFire_state])
    · rfl
  · rw [onMinuteBar]
    split
    · dsimp only
      split_ifs
      all_goals (intro a ha)
      all_goals (first
        | exact absurd ha (by simp)
        | exact onMinuteBarFire_some _ _ _ _ _ _ _ _ _ _ _ _ a ha)
    · intro a ha
      exact absurd ha (by simp)
  · intro rs dir level levelPrice msg
    rfl
  · intro u hst hle
    constructor
    · rw [onMinuteBar]
      simp only [hst]
    · intro spyBars5 symBars5 symLevels
      rw [evaluateSymbol]
      match hlast : symBars5.getLast? with
      | none => rfl
      | some last =>
        simp only
        split
        · simp only [hst]
        · simp only [hst, not_lt.2 hle, if_neg, reduceIte]

/-- Witness for `signalEngine_cooldown_spec`: the concrete entry tap keeps the
`Broken` state, and a cooled-down context stays silent at `now = untilBarTime`. -/
theorem signalEngine_cooldown_spec_witness :
    letI r := onMinuteBar tapCfg tapCtx 2000 "XYZ" 2000 (2001/20) (1999/20)
      (2001/20) .BULLISH
    letI cdCtx : SymbolContext :=
      { state := .COOLDOWN 601000, lastMarket := some .BULLISH,
        lastRS := some .STRONG, tapState := none }
    (r.2.state = tapCtx.state
      ∧ ∀ a, r.1 = some a →
        r.2.tapState.map TapState.canFire = some false
        ∧ a.message = "A+ ENTRY (1m TAP)")
    ∧ ((onMinuteBar tapCfg cdCtx 601000 "XYZ" 601000 101 99 100 .BULLISH).1 =
        none
      ∧ ∀ (spyBars5 symBars5 : List Bar5) (symLevels : Levels),
          (evaluateSymbol tapCfg cdCtx 601000 "XYZ" .BULLISH spyBars5 symBars5
            symLevels).1 = none) :=
  ⟨(signalEngine_cooldown_spec tapCfg tapCtx 2000 "XYZ" 2000 (2001/20)
      (1999/20) (2001/20) .BULLISH).1,
    (signalEngine_cooldown_spec tapCfg _ 601000 "XYZ" 601000 101 99 100
      .BULLISH).2.2 601000 rfl (by norm_num)⟩

/-- **C9** — the effective market bias is `BULLISH` iff both benchmarks sit at
or above their session VWAPs and the breadth bias is bullish (symmetrically
for `BEARISH`, else `NEUTRAL`); with at least 3 eligible watch-set members the
breadth bias is bullish iff `above/total ≥ 60 %` and bearish iff
`above/total ≤ 40 %`; with fewer than 3 eligible members it falls back to the
benchmarks' shared VWAP side. -/
theorem effectiveMarketDir_spec (env : BiasEnv) :
    (getEffectiveMarketDir env = .BULLISH ↔
      (computeIndexSide env "SPY" = .ABOVE ∧ computeIndexSide env "QQQ" = .ABOVE)
      ∧ computeMarketBiasFromVwap env env.watchlist = .BULLISH)
    ∧ (getEffectiveMarketDir env = .BEARISH ↔
      (computeIndexSide env "SPY" = .BELOW ∧ computeIndexSide env "QQQ" = .BELOW)
      ∧ computeMarketBiasFromVwap env env.watchlist = .BEARISH)
    ∧ (∀ symbols, 3 ≤ (breadthCounts env symbols).1 + (breadthCounts env symbols).2 →
      (computeMarketBiasFromVwap env symbols = .BULLISH ↔
        (3 : ℚ) / 5 ≤ ((breadthCounts env symbols).1 : ℚ) /
          (((breadthCounts env symbols).1 + (breadthCounts env symbols).2 : ℕ) : ℚ))
      ∧ (computeMarketBiasFromVwap env symbols = .BEARISH ↔
        ¬ (3 : ℚ) / 5 ≤ ((breadthCounts env symbols).1 : ℚ) /
          (((breadthCounts env symbols).1 + (breadthCounts env symbols).2 : ℕ) : ℚ)
        ∧ ((breadthCounts env symbols).1 : ℚ) /
          (((breadthCounts env symbols).1 + (breadthCounts env symbols).2 : ℕ) : ℚ) ≤
            (2 : ℚ) / 5))
    ∧ (∀ symbols, (breadthCounts env symbols).1 + (breadthCounts env symbols).2 < 3 →
      computeMarketBiasFromVwap env symbols =
        (if computeIndexSide env "SPY" = .ABOVE ∧ computeIndexSide env "QQQ" = .ABOVE
          then .BULLISH
          else if computeIndexSide env "SPY" = .BELOW ∧ computeIndexSide env "QQQ" = .BELOW
          then .BEARISH
          else .NEUTRAL)) := by
  refine ⟨?_, ?_, ?_, ?_⟩
  · rw [getEffectiveMarketDir]
    split_ifs with h1 h2 <;> simp_all <;> tauto
  · rw [getEffectiveMarketDir]
    split_ifs with h1 h2 <;> simp_all <;> tauto
  · intro symbols htot
    rw [computeMarketBiasFromVwap]
    rw [if_neg (not_lt.2 htot)]
    split_ifs with h1 h2 <;> simp_all
  · intro symbols htot
    rw [computeMarketBiasFromVwap]
    rw [if_pos htot]

/-- Witness for `effectiveMarketDir_spec`: four watch-set members, three above
their VWAPs (75 % breadth), both benchmarks above — bullish. -/
theorem effectiveMarketDir_spec_witness :
    letI env : BiasEnv :=
      { lastPrice := fun s =>
          if s = "SPY" then some 500
          else if s = "QQQ" then some 400
          else if s = "A" then some 10
          else if s = "B" then some 11
          else if s = "C" then some 12
          else if s = "D" then some 13
          else none,
        vwap := fun s =>
          if s = "SPY" then some 499
          else if s = "QQQ" then some 399
          else if s = "A" then some 9
          else if s = "B" then some 10
          else if s = "C" then some 11
          else if s = "D" then some 14
          else none,
        watchlist := ["A", "B", "C", "D"] }
    (3 ≤ (breadthCounts env env.watchlist).1 + (breadthCounts env env.watchlist).2)
    ∧ (computeMarketBiasFromVwap env env.watchlist = .BULLISH ↔
        (3 : ℚ) / 5 ≤ ((breadthCounts env env.watchlist).1 : ℚ) /
          (((breadthCounts env env.watchlist).1 +
            (breadthCounts env env.watchlist).2 : ℕ) : ℚ))
    ∧ (getEffectiveMarketDir env = .BULLISH ↔
        (computeIndexSide env "SPY" = .ABOVE ∧ computeIndexSide env "QQQ" = .ABOVE)
        ∧ computeMarketBiasFromVwap env env.watchlist = .BULLISH) := by
  refine ⟨by decide, ((effectiveMarketDir_spec _).2.2.1 _ (by decide)).1,
    (effectiveMarketDir_spec _).1⟩

lemma stableTOT_refl (σ : SimState) : StableTOT σ σ := ⟨rfl, rfl, rfl, rfl⟩

lemma stableTOT_trans {σ1 σ2 σ3 : SimState} (h1 : StableTOT σ1 σ2)
    (h2 : StableTOT σ2 σ3) : StableTOT σ1 σ3 := by
  obtain ⟨a1, b1, c1, d1⟩ := h1
  obtain ⟨a2, b2, c2, d2⟩ := h2
  exact ⟨a2.trans a1, b2.trans b1, c2.trans c1, d2.trans d1⟩

lemma stableTOT_opensAt {e : Option Candle} {i : ℕ} {day : ℤ}
    {σ1 σ2 σ3 : SimState} (h1 : StableTOT σ1 σ2) (h2 : OpensAt e i day σ2 σ3) :
    OpensAt e i day σ1 σ3 := by
  obtain ⟨a1, b1, c1, d1⟩ := h1
  obtain ⟨ht, o, ec, he, ho, hb, htr, hi, hd, hts, hp, hni⟩ := h2
  exact ⟨ht.trans a1, o, ec, he, ho, hb, d1 ▸ htr, hi, hd, hts, hp, d1 ▸ hni⟩

lemma setLS_stable (σ : SimState) (day : ℤ) (lid : String) (v : SetupPair) :
    StableTOT σ (setLS σ day lid v) := ⟨rfl, rfl, rfl, rfl⟩

lemma tryOpen_shape (ctx : StepCtx) (entryC? : Option Candle) (i : ℕ)
    (day : ℤ) (L : ResolvedLevel) (lid : String) (dir : TradeDir) (stop : ℚ)
    (σ : SimState) (hni : (day, lid) ∉ σ.traded) :
    tryOpen ctx entryC? i day L lid dir stop σ = σ ∨
      OpensAt entryC? i day σ (tryOpen ctx entryC? i day L lid dir stop σ) := by
  unfold tryOpen
  match entryC? with
  | none => exact Or.inl rfl
  | some entryC =>
    dsimp only
    split
    · split
      · exact Or.inr ⟨rfl, _, entryC, rfl, rfl, rfl, rfl, rfl, rfl, rfl, rfl, hni⟩
      · exact Or.inl rfl
    · exact Or.inl rfl

lemma opensAt_isSome {e : Option Candle} {i : ℕ} {day : ℤ} {σ σ' : SimState}
    (h : OpensAt e i day σ σ') : σ'.openTrade.isSome = true := by
  obtain ⟨-, o, ec, -, ho, -⟩ := h
  simp [ho]

/-- The two-sided attempt pattern shared by the `RETEST` and `BREAK` modes:
a guarded long try, a break on success, then a guarded short try. -/
lemma attempt2_shape {e : Option Candle} {i : ℕ} {day : ℤ} {σ σ1 : SimState}
    (pS : Prop) [Decidable pS] (fS : SimState → SimState)
    (h1 : σ1 = σ ∨ OpensAt e i day σ σ1)
    (hfS : fS σ = σ ∨ OpensAt e i day σ (fS σ)) :
    (if σ1.openTrade.isSome then σ1 else if pS then fS σ1 else σ1) = σ ∨
      OpensAt e i day σ
        (if σ1.openTrade.isSome then σ1 else if pS then fS σ1 else σ1) := by
  rcases h1 with rfl | hop
  · split
    · exact Or.inl rfl
    · split
      · exact hfS
      · exact Or.inl rfl
  · rw [if_pos (opensAt_isSome hop)]
    exact Or.inr hop

lemma evalRetestMode_shape (ctx : StepCtx) (entryC? : Option Candle) (i : ℕ)
    (day : ℤ) (L : ResolvedLevel) (lid : String) (c : Candle) (σ : SimState)
    (hni : (day, lid) ∉ σ.traded) :
    evalRetestMode ctx entryC? i day L lid c σ = σ ∨
      OpensAt entryC? i day σ (evalRetestMode ctx entryC? i day L lid c σ) := by
  rw [evalRetestMode]
  refine attempt2_shape (L.price ≤ c.h ∧ c.c < L.price)
    (tryOpen ctx entryC? i day L lid .SHORT c.h) ?_ ?_
  · split
    · exact tryOpen_shape ctx entryC? i day L lid .LONG c.l σ hni
    · exact Or.inl rfl
  · exact tryOpen_shape ctx entryC? i day L lid .SHORT c.h σ hni

lemma evalBreakMode_shape (ctx : StepCtx) (entryC? : Option Candle) (i : ℕ)
    (day : ℤ) (L : ResolvedLevel) (lid : String) (c : Candle) (σ : SimState)
    (hni : (day, lid) ∉ σ.traded) :
    evalBreakMode ctx entryC? i day L lid c σ = σ ∨
      OpensAt entryC? i day σ (evalBreakMode ctx entryC? i day L lid c σ) := by
  rw [evalBreakMode]
  refine attempt2_shape (c.c < L.price)
    (tryOpen ctx entryC? i day L lid .SHORT
      (L.price + tolAbsForPrice ctx.repeatSr L.price)) ?_ ?_
  · split
    · exact tryOpen_shape ctx entryC? i day L lid .LONG
        (L.price - tolAbsForPrice ctx.repeatSr L.price) σ hni
    · exact Or.inl rfl
  · exact tryOpen_shape ctx entryC? i day L lid .SHORT
      (L.price + tolAbsForPrice ctx.repeatSr L.price) σ hni

lemma opensAt_stableTOT {e : Option Candle} {i : ℕ} {day : ℤ}
    {σ1 σ2 σ3 : SimState} (h1 : OpensAt e i day σ1 σ2)
    (h2 : StableTOT σ2 σ3) : OpensAt e i day σ1 σ3 := by
  obtain ⟨ht, o, ec, he, ho, hb, htr, hi, hd, hts, hp, hni⟩ := h1
  obtain ⟨a2, b2, c2, d2⟩ := h2
  exact ⟨a2.trans ht, o, ec, he, b2.trans ho, c2.trans hb, d2.trans htr,
    hi, hd, hts, hp, hni⟩

lemma evalBRLong_shape (ctx : StepCtx) (entryC? : Option Candle) (i : ℕ)
    (day : ℤ) (L : ResolvedLevel) (lid : String) (c : Candle) (σ : SimState)
    (hni : (day, lid) ∉ σ.traded) :
    StableTOT σ (evalBRLong ctx entryC? i day L lid c σ) ∨
      OpensAt entryC? i day σ (evalBRLong ctx entryC? i day L lid c σ) := by
  rw [evalBRLong]
  split
  · split
    · exact Or.inl (setLS_stable _ _ _ _)
    · exact Or.inl (stableTOT_refl σ)
  · split
    · exact Or.inl (setLS_stable _ _ _ _)
    · exact Or.inl (stableTOT_refl σ)
  · split
    · rcases tryOpen_shape ctx entryC? i day L lid .LONG _ σ hni with heq | hop
      · rw [heq]
        exact Or.inl (setLS_stable _ _ _ _)
      · exact Or.inr (opensAt_stableTOT hop (setLS_stable _ _ _ _))
    · exact Or.inl (setLS_stable _ _ _ _)

lemma evalBRShort_shape (ctx : StepCtx) (entryC? : Option Candle) (i : ℕ)
    (day : ℤ) (L : ResolvedLevel) (lid : String) (c : Candle) (σ : SimState)
    (hni : (day, lid) ∉ σ.traded) :
    StableTOT σ (evalBRShort ctx entryC? i day L lid c σ) ∨
      OpensAt entryC? i day σ (evalBRShort ctx entryC? i day L lid c σ) := by
  rw [evalBRShort]
  split
  · split
    · exact Or.inl (setLS_stable _ _ _ _)
    · exact Or.inl (stableTOT_refl σ)
  · split
    · exact Or.inl (setLS_stable _ _ _ _)
    · exact Or.inl (stableTOT_refl σ)
  · split
    · rcases tryOpen_shape ctx entryC? i day L lid .SHORT _ σ hni with heq | hop
      · rw [heq]
        exact Or.inl (setLS_stable _ _ _ _)
      · exact Or.inr (opensAt_stableTOT hop (setLS_stable _ _ _ _))
    · exact Or.inl (setLS_stable _ _ _ _)

lemma evalLevel_shape (ctx : StepCtx) (entryC? : Option Candle) (i : ℕ)
    (day : ℤ) (c : Candle) (σ : SimState) (L : ResolvedLevel) :
    StableTOT σ (evalLevel ctx entryC? i day c σ L) ∨
      OpensAt entryC? i day σ (evalLevel ctx entryC? i day c σ L) := by
  rw [evalLevel]
  split
  · exact Or.inl (stableTOT_refl σ)
  · rename_i hni
    match hmode : ctx.entryMode with
    | .RETEST =>
      rcases evalRetestMode_shape ctx entryC? i day L L.levelId c σ hni with heq | hop
      · rw [heq]
        exact Or.inl (stableTOT_refl σ)
      · exact Or.inr hop
    | .BREAK =>
      rcases evalBreakMode_shape ctx entryC? i day L L.levelId c σ hni with heq | hop
      · rw [heq]
        exact Or.inl (stableTOT_refl σ)
      · exact Or.inr hop
    | .BREAK_RETEST =>
      dsimp only
      rcases evalBRLong_shape ctx entryC? i day L L.levelId c σ hni with hst | hop
      · split
        · exact Or.inl hst
        · rcases evalBRShort_shape ctx entryC? i day L L.levelId c _
              (hst.2.2.2 ▸ hni) with hst2 | hop2
          · exact Or.inl (stableTOT_trans hst hst2)
          · exact Or.inr (stableTOT_opensAt hst hop2)
      · rw [if_pos (opensAt_isSome hop)]
        exact Or.inr hop

lemma evalLevels_shape (ctx : StepCtx) (entryC? : Option Candle) (i : ℕ)
    (day : ℤ) (c : Candle) :
    ∀ (ls : List ResolvedLevel) (σ : SimState),
      StableTOT σ (evalLevels ctx entryC? i day c ls σ) ∨
        OpensAt entryC? i day σ (evalLevels ctx entryC? i day c ls σ)
  | [], σ => Or.inl (stableTOT_refl σ)
  | L :: rest, σ => by
    rw [evalLevels]
    rcases evalLevel_shape ctx entryC? i day c σ L with hst | hop
    · split
      · exact Or.inl hst
      · rcases evalLevels_shape ctx entryC? i day c rest _ with hst2 | hop2
        · exact Or.inl (stableTOT_trans hst hst2)
        · exact Or.inr (stableTOT_opensAt hst hop2)
    · rw [if_pos (opensAt_isSome hop)]
      exact Or.inr hop

lemma manageOpen_shape (ctx : StepCtx) (i : ℕ) (c : Candle) (σ : SimState) :
    (σ.openTrade = none ∧ manageOpen ctx i c σ = σ) ∨
    (∃ o, σ.openTrade = some o ∧
      manageOpen ctx i c σ = { σ with openBarsHeld := σ.openBarsHeld + 1 }) ∨
    (∃ o xp r, σ.openTrade = some o ∧
      manageOpen ctx i c σ =
        { σ with
          trades := σ.trades ++
            [pushTrade ctx o c.ts xp r (σ.openBarsHeld + 1) i],
          openTrade := none, openBarsHeld := 0 }) := by
  rw [manageOpen]
  match ho : σ.openTrade with
  | none => exact Or.inl ⟨rfl, rfl⟩
  | some o =>
    dsimp only
    split
    · exact Or.inr (Or.inr ⟨o, _, _, rfl, rfl⟩)
    · split
      · exact Or.inr (Or.inr ⟨o, _, _, rfl, rfl⟩)
      · exact Or.inr (Or.inl ⟨o, rfl, rfl⟩)

lemma simInv_init (tenv : TimeEnv) (candles : List Candle) :
    SimInv tenv candles 0 initSimState := by
  constructor <;> simp [initSimState]

lemma SimInv.mono {tenv : TimeEnv} {candles : List Candle} {n m : ℕ}
    {σ : SimState} (h : SimInv tenv candles n σ) (hnm : n ≤ m) :
    SimInv tenv candles m σ := by
  refine ⟨?_, h.trades_order, h.pairs_nodup, ?_⟩
  · intro g hg
    obtain ⟨h1, h2, h3, h4⟩ := h.trades_entry g hg
    exact ⟨h1, h2, lt_of_lt_of_le h3 hnm, h4⟩
  · intro o ho
    obtain ⟨h1, h2, h3⟩ := h.open_inv o ho
    exact ⟨h1, le_trans h2 hnm, h3⟩

/-- The invariant only reads `trades`, `openTrade` and `traded`. -/
lemma simInv_transfer {tenv : TimeEnv} {candles : List Candle} {n : ℕ}
    {σ σ' : SimState} (h : SimInv tenv candles n σ)
    (ht : σ'.trades = σ.trades) (ho : σ'.openTrade = σ.openTrade)
    (hr : σ'.traded = σ.traded) : SimInv tenv candles n σ' := by
  refine ⟨?_, ?_, ?_, ?_⟩
  · rw [ht, hr]
    exact h.trades_entry
  · rw [ht]
    exact h.trades_order
  · rw [ht]
    exact h.pairs_nodup
  · rw [ho, ht, hr]
    exact h.open_inv

/-- Closing the open trade at the processed bar `n` preserves the invariant. -/
lemma simInv_close {tenv : TimeEnv} {candles : List Candle} {n : ℕ}
    {σ : SimState} (ctx : StepCtx) (o : OpenTrade) (xp : ℚ) (r : ExitReason)
    {c : Candle} (hinv : SimInv tenv candles n σ) (ho : σ.openTrade = some o)
    (hc : candles.get? n = some c) :
    SimInv tenv candles (n + 1)
      { σ with
        trades := σ.trades ++ [pushTrade ctx o c.ts xp r (σ.openBarsHeld + 1) n],
        openTrade := none, openBarsHeld := 0 } := by
  obtain ⟨hoi1, hoi2, hoiec, hoidc, hoilt, hoitr, hoinp⟩ := hinv.open_inv o ho
  refine ⟨?_, ?_, ?_, ?_⟩
  · intro g hg
    rcases List.mem_append.1 hg with hg | hg
    · obtain ⟨h1, h2, h3, h4⟩ := hinv.trades_entry g hg
      exact ⟨h1, h2, lt_of_lt_of_le h3 (Nat.le_succ n), h4⟩
    · rcases List.mem_singleton.1 hg with rfl
      refine ⟨hoi1, hoi2, Nat.lt_succ_self n, hoiec, ⟨c, hc, rfl⟩, hoidc, hoitr⟩
  · rw [List.pairwise_append]
    refine ⟨hinv.trades_order, List.pairwise_singleton _ _, ?_⟩
    intro g hg g' hg'
    rcases List.mem_singleton.1 hg' with rfl
    exact hoilt g hg
  · rw [List.map_append]
    simp only [List.map_cons, List.map_nil]
    rw [List.nodup_append]
    refine ⟨hinv.pairs_nodup, List.nodup_singleton _, ?_⟩
    intro p hp hp'
    rcases List.mem_singleton.1 hp' with rfl
    exact hoinp hp
  · intro o' ho'
    exact absurd ho' (by simp)

/-- Opening a trade decided at the processed bar `n` (fill bar `n+1`)
preserves the invariant. -/
lemma simInv_opens {tenv : TimeEnv} {candles : List Candle} {n : ℕ}
    {σ σ' : SimState} {c : Candle}
    (hinv : SimInv tenv candles (n + 1) σ)
    (hc : candles.get? n = some c)
    (hop : OpensAt (candles.get? (n + 1)) n (tenv.dayKey c.ts) σ σ') :
    SimInv tenv candles (n + 1) σ' := by
  obtain ⟨ht, o, ec, he, ho, hb, htr, hi, hd, hts, hp, hni⟩ := hop
  refine ⟨?_, ?_, ?_, ?_⟩
  · intro g hg
    rw [ht] at hg
    obtain ⟨h1, h2, h3, h4, h5, h6, h7⟩ := hinv.trades_entry g hg
    exact ⟨h1, h2, h3, h4, h5, h6, by
      rw [htr]
      exact List.mem_cons_of_mem _ h7⟩
  · rw [ht]
    exact hinv.trades_order
  · rw [ht]
    exact hinv.pairs_nodup
  · intro o' ho'
    rw [ho] at ho'
    rcases Option.some.inj ho' with rfl
    refine ⟨by omega, by omega, ?_, ?_, ?_, ?_, ?_⟩
    · refine ⟨ec, ?_, hts, hp⟩
      rw [hi]
      exact he
    · refine ⟨c, ?_, ?_⟩
      · rw [hi]
        simpa using hc
      · rw [hd]
    · intro g hg
      rw [ht] at hg
      obtain ⟨-, -, h3, -⟩ := hinv.trades_entry g hg
      omega
    · rw [htr, hd]
      exact List.mem_cons_self _ _
    · rw [ht, hd]
      intro hmem
      rcases List.mem_map.1 hmem with ⟨g, hg, hgp⟩
      obtain ⟨-, -, -, -, -, -, h7⟩ := hinv.trades_entry g hg
      rw [hgp] at h7
      exact hni h7

lemma stepCore_inv (args : SimArgs) (n : ℕ) (c : Candle) (σ : SimState)
    (hc : args.candles.get? n = some c)
    (hinv : SimInv args.tenv args.candles n σ) :
    SimInv args.tenv args.candles (n + 1)
      (stepCore args.ctx (args.candles.take n) (args.candles.get? (n + 1)) n c
        σ) := by
  have hinv1 : SimInv args.tenv args.candles (n + 1)
      (manageOpen args.ctx n c σ) := by
    rcases manageOpen_shape args.ctx n c σ with ⟨-, heq⟩ | ⟨o, ho, heq⟩ |
      ⟨o, xp, r, ho, heq⟩
    · rw [heq]
      exact hinv.mono (Nat.le_succ n)
    · rw [heq]
      exact simInv_transfer (hinv.mono (Nat.le_succ n)) rfl rfl rfl
    · rw [heq]
      exact simInv_close args.ctx o xp r hinv ho hc
  rw [stepCore]
  dsimp only
  split
  · exact hinv.mono (Nat.le_succ n)
  · split
    · exact hinv.mono (Nat.le_succ n)
    · split
      · exact hinv1
      · split
        · exact hinv1
        · rcases evalLevels_shape args.ctx (args.candles.get? (n + 1)) n
              (args.ctx.tenv.dayKey c.ts) c _ (manageOpen args.ctx n c σ)
            with hst | hop
          · exact simInv_transfer hinv1 hst.1 hst.2.1 hst.2.2.2
          · exact simInv_opens hinv1 hc hop

lemma runSim_inv (args : SimArgs) :
    ∀ n, SimInv args.tenv args.candles n (runSim args n)
  | 0 => simInv_init args.tenv args.candles
  | n + 1 => by
    rw [runSim]
    match hc : args.candles.get? n with
    | none => exact (runSim_inv args n).mono (Nat.le_succ n)
    | some c => exact stepCore_inv args n c _ hc (runSim_inv args n)

lemma take_eq_of_take_succ {α : Type} {l1 l2 : List α} {m n : ℕ}
    (h : l1.take n = l2.take n) (hm : m ≤ n) : l1.take m = l2.take m := by
  have := congrArg (List.take m) h
  rwa [List.take_take, List.take_take, min_eq_left hm] at this

lemma get?_eq_of_take {α : Type} {l1 l2 : List α} {m n : ℕ}
    (h : l1.take n = l2.take n) (hm : m < n) : l1.get? m = l2.get? m := by
  rw [← List.get?_take hm, h, List.get?_take hm]

/-- Prefix determinacy: the state after the first `n` candles depends only on
the first `n + 1` candles — processing bar `j` reads no candle beyond
`j + 1`. -/
lemma runSim_take_congr (args : SimArgs) (c1 c2 : List Candle) :
    ∀ n, c1.take (n + 1) = c2.take (n + 1) →
      runSim { args with candles := c1 } n = runSim { args with candles := c2 } n
  | 0, _ => rfl
  | n + 1, h => by
    have ih := runSim_take_congr args c1 c2 n
      (take_eq_of_take_succ h (Nat.le_succ (n + 1)))
    have hg : c1.get? n = c2.get? n := get?_eq_of_take h (by omega)
    have hg2 : c1.get? (n + 1) = c2.get? (n + 1) :=
      get?_eq_of_take h (by omega)
    have htk : c1.take n = c2.take n :=
      take_eq_of_take_succ h (by omega)
    rw [runSim, runSim]
    dsimp only [SimArgs.ctx]
    rw [hg, hg2, htk, ih]

lemma pairwise_ts_lt {l : List Candle}
    (h : l.Pairwise (fun a b => a.ts < b.ts)) {i j : ℕ} {a b : Candle}
    (hij : i < j) (ha : l.get? i = some a) (hb : l.get? j = some b) :
    a.ts < b.ts := by
  rcases List.get?_eq_some.1 ha with ⟨hi, rfl⟩
  rcases List.get?_eq_some.1 hb with ⟨hj, rfl⟩
  exact List.pairwise_iff_get.1 h ⟨i, hi⟩ ⟨j, hj⟩ hij

lemma nodup_map_filter_le_one {α β : Type} [DecidableEq β] (f : α → β)
    (l : List α) (h : (l.map f).Nodup) (k : β) :
    (l.filter (fun x => decide (f x = k))).length ≤ 1 := by
  induction l with
  | nil => simp
  | cons x rest ih =>
    rw [List.map_cons, List.nodup_cons] at h
    by_cases hx : f x = k
    · have hrest : rest.filter (fun x => decide (f x = k)) = [] := by
        rw [List.filter_eq_nil]
        intro y hy
        simp only [decide_eq_true_eq]
        intro hyk
        refine h.1 ?_
        rw [hx, ← hyk]
        exact List.mem_map_of_mem f hy
      simp [List.filter_cons, hx, hrest]
    · simpa [List.filter_cons, hx] using ih h.2

/-- **C1** — no lookahead in `simulateStrategy`: every emitted trade has a
decision bar `signalIdx = entryIdx - 1` and is filled at the very next bar:
`entryTs` and `entryPrice` are the timestamp and open of the candle at
`signalIdx + 1`; with strictly increasing timestamps every candle up to and
including the decision bar has `ts < entryTs`; and the simulation state after
the first `n` bars (which includes any trade decided on bar `n - 1`) is a
function of the first `n + 1` candles alone, so no candle beyond the fill bar
influences any decision. -/
theorem simulateStrategy_no_lookahead (args : SimArgs) :
    (∀ g ∈ simulateStrategyG args,
      1 ≤ g.entryIdx ∧
      (∃ ec, args.candles.get? g.entryIdx = some ec ∧
        g.t.entryTs = ec.ts ∧ g.t.entryPrice = ec.o) ∧
      (∃ dc, args.candles.get? (g.entryIdx - 1) = some dc ∧
        g.day = args.tenv.dayKey dc.ts))
    ∧ (args.candles.Pairwise (fun a b => a.ts < b.ts) →
        ∀ g ∈ simulateStrategyG args, ∀ (k : ℕ) (ck : Candle),
          k < g.entryIdx → args.candles.get? k = some ck →
          ck.ts < g.t.entryTs)
    ∧ (∀ (c1 c2 : List Candle) (n : ℕ), c1.take (n + 1) = c2.take (n + 1) →
        runSim { args with candles := c1 } n =
          runSim { args with candles := c2 } n)
    ∧ simulateStrategy args = (simulateStrategyG args).map GTrade.t := by
  have hinv := runSim_inv args args.candles.length
  refine ⟨?_, ?_, ?_, rfl⟩
  · intro g hg
    obtain ⟨h1, -, -, h4, -, h6, -⟩ := hinv.trades_entry g hg
    exact ⟨h1, h4, h6⟩
  · intro hmono g hg k ck hk hck
    obtain ⟨-, -, -, ⟨ec, hec, hets, -⟩, -⟩ := hinv.trades_entry g hg
    rw [hets]
    exact pairwise_ts_lt hmono hk hck hec
  · exact runSim_take_congr args

/-- **C4** — single open trade per symbol: the trades of one
`simulateStrategy` run (all for `args.ticker`) are chronologically disjoint —
each trade's interval `[entryTs, exitTs]` ends strictly before the next
trade's entry under strictly increasing candle timestamps (`runBacktest`
calls `simulateStrategy` once per ticker, so trades of one symbol in a run
are exactly one such list). -/
theorem simulateStrategy_no_overlap (args : SimArgs)
    (hmono : args.candles.Pairwise (fun a b => a.ts < b.ts)) :
    (simulateStrategy args).Pairwise (fun t1 t2 => t1.exitTs < t2.entryTs)
    ∧ (∀ t ∈ simulateStrategy args, t.entryTs ≤ t.exitTs) := by
  have hinv := runSim_inv args args.candles.length
  refine ⟨?_, ?_⟩
  · rw [simulateStrategy, List.pairwise_map]
    refine List.Pairwise.imp_of_mem ?_ hinv.trades_order
    intro g1 g2 hg1 hg2 hlt
    obtain ⟨-, -, -, -, ⟨xc, hxc, hxts⟩, -⟩ := hinv.trades_entry g1 hg1
    obtain ⟨-, -, -, ⟨ec, hec, hets, -⟩, -⟩ := hinv.trades_entry g2 hg2
    rw [hxts, hets]
    exact pairwise_ts_lt hmono hlt hxc hec
  · intro t ht
    rcases List.mem_map.1 ht with ⟨g, hg, rfl⟩
    obtain ⟨-, h2, -, ⟨ec, hec, hets, -⟩, ⟨xc, hxc, hxts⟩, -⟩ :=
      hinv.trades_entry g hg
    rw [hets, hxts]
    rcases Nat.lt_or_ge g.entryIdx g.exitIdx with hlt | hge
    · exact le_of_lt (pairwise_ts_lt hmono hlt hec hxc)
    · have : g.entryIdx = g.exitIdx := le_antisymm h2 hge
      rw [this] at hec
      rw [hec] at hxc
      rcases Option.some.inj hxc with rfl
      exact le_refl _

/-- **C5** — one trade per level per day: within one `simulateStrategy` run,
at most one trade references a given level identifier on a given decision
day (`g.day` is the NY day key of the trade's decision bar, the key under
which `tradedLevelByDay` gates re-entry). -/
theorem simulateStrategy_one_per_level_day (args : SimArgs) :
    (∀ (d : ℤ) (lid : String),
      ((simulateStrategyG args).filter
        (fun g => decide (g.day = d ∧ g.t.metaLevelId = lid))).length ≤ 1)
    ∧ (∀ g ∈ simulateStrategyG args,
        ∃ dc, args.candles.get? (g.entryIdx - 1) = some dc ∧
          g.day = args.tenv.dayKey dc.ts)
    ∧ simulateStrategy args = (simulateStrategyG args).map GTrade.t := by
  have hinv := runSim_inv args args.candles.length
  refine ⟨?_, ?_, rfl⟩
  · intro d lid
    have h := nodup_map_filter_le_one (fun g => (g.day, g.t.metaLevelId))
      (simulateStrategyG args) hinv.pairs_nodup (d, lid)
    refine le_trans (le_of_eq ?_) h
    congr 1
    apply List.filter_congr
    intro g hg
    simp [Prod.ext_iff]
  · intro g hg
    obtain ⟨-, -, -, -, -, h6, -⟩ := hinv.trades_entry g hg
    exact h6

lemma evalLevels_trades (ctx : StepCtx) (e : Option Candle) (i : ℕ) (day : ℤ)
    (c : Candle) (ls : List ResolvedLevel) (σ : SimState) :
    (evalLevels ctx e i day c ls σ).trades = σ.trades := by
  rcases evalLevels_shape ctx e i day c ls σ with hst | hop
  · exact hst.1
  · exact hop.1

lemma manageOpen_both_hit (ctx : StepCtx) (i : ℕ) (c : Candle) (σ : SimState)
    (o : OpenTrade) (ho : σ.openTrade = some o) (hs : stopHitB o c = true) :
    manageOpen ctx i c σ =
      { σ with
        trades := σ.trades ++
          [pushTrade ctx o c.ts o.stop .STOP (σ.openBarsHeld + 1) i],
        openTrade := none, openBarsHeld := 0 } := by
  rw [manageOpen, ho]
  simp only [hs, Bool.true_or, if_true, reduceIte]

/-- **C3 (amended)** — on every candle the simulator actually processes
against an open trade (a regular-session candle for which at least one level
resolves), if the bar's range satisfies both the stop and the target
condition, the trade is closed on that bar with `exitReason = STOP` and
`exitPrice = stopPrice` (the conservative stop-first tie-break); in fact a
satisfied stop condition alone forces the `STOP` resolution. -/
theorem both_hit_resolves_stop (ctx : StepCtx) (pre : List Candle)
    (entryC? : Option Candle) (i : ℕ) (c : Candle) (σ : SimState)
    (o : OpenTrade) (ho : σ.openTrade = some o)
    (hrth : ctx.tenv.isRegularSession c.ts = true)
    (hlev : (resolveLevelsForCandle ctx pre (ctx.tenv.dayKey c.ts)).isEmpty
      = false)
    (hs : stopHitB o c = true) (ht : tgtHitB o c = true) :
    (stepCore ctx pre entryC? i c σ).trades =
      σ.trades ++ [pushTrade ctx o c.ts o.stop .STOP (σ.openBarsHeld + 1) i]
    ∧ (pushTrade ctx o c.ts o.stop .STOP (σ.openBarsHeld + 1) i).t.exitReason
      = .STOP
    ∧ (pushTrade ctx o c.ts o.stop .STOP (σ.openBarsHeld + 1) i).t.exitPrice
      = o.stop
    ∧ (pushTrade ctx o c.ts o.stop .STOP (σ.openBarsHeld + 1) i).t.exitTs
      = c.ts := by
  refine ⟨?_, rfl, rfl, rfl⟩
  rw [stepCore]
  dsimp only
  rw [hrth]
  rw [if_neg (by simp)]
  rw [hlev]
  rw [if_neg (by simp)]
  rw [manageOpen_both_hit ctx i c σ o ho hs]
  split
  · rfl
  · split
    · rfl
    · rw [evalLevels_trades]

/-- **C3 (counterexample)** — a bar whose range satisfies both the stop and
the target condition of the open trade is *not* closed when the simulator
skips the bar: in `skipArgs` the trade is open after bar 1, bar 2 (after
hours) satisfies both conditions, yet processing it changes nothing — the
run ends with the trade still open and an empty trade list, so no trade is
closed on that bar with `exitReason = STOP`. -/
theorem both_hit_skipped_cex :
    (runSim skipArgs 2).openTrade = some openDemo
    ∧ skipArgs.candles.get? 2 = some (mkCandle 1704922200000 100 120 90 95)
    ∧ stopHitB openDemo (mkCandle 1704922200000 100 120 90 95) = true
    ∧ tgtHitB openDemo (mkCandle 1704922200000 100 120 90 95) = true
    ∧ runSim skipArgs 3 = runSim skipArgs 2
    ∧ simulateStrategy skipArgs = [] := by
  refine ⟨by decide, by decide, by decide, by decide, by decide, by decide⟩

/-- Witness for `both_hit_resolves_stop`: in `bothArgs`, bar 2 is regular
session, resolves a level, and satisfies both conditions; the trade closes
with `STOP` at the stop price. -/
theorem both_hit_resolves_stop_witness :
    (runSim bothArgs 2).openTrade = some openDemo
    ∧ (stepCore bothArgs.ctx (bothArgs.candles.take 2)
        (bothArgs.candles.get? 3) 2
        (mkCandle 1704899400000 (199/2) 109 98 100)
        (runSim bothArgs 2)).trades =
      (runSim bothArgs 2).trades ++
        [pushTrade bothArgs.ctx openDemo 1704899400000 openDemo.stop .STOP
          ((runSim bothArgs 2).openBarsHeld + 1) 2] :=
  ⟨by decide,
    (both_hit_resolves_stop bothArgs.ctx (bothArgs.candles.take 2)
      (bothArgs.candles.get? 3) 2 (mkCandle 1704899400000 (199/2) 109 98 100)
      (runSim bothArgs 2) openDemo (by decide) (by decide) (by decide)
      (by decide) (by decide)).1⟩

/-- Witness for `simulateStrategy_no_lookahead` at the concrete run `wArgs`
(which emits one trade). -/
theorem simulateStrategy_no_lookahead_witness :
    simulateStrategyG wArgs = [wTrade]
    ∧ wArgs.candles.Pairwise (fun a b => a.ts < b.ts)
    ∧ (∀ (k : ℕ) (ck : Candle), k < wTrade.entryIdx →
        wArgs.candles.get? k = some ck → ck.ts < wTrade.t.entryTs)
    ∧ (1 ≤ wTrade.entryIdx ∧
      (∃ ec, wArgs.candles.get? wTrade.entryIdx = some ec ∧
        wTrade.t.entryTs = ec.ts ∧ wTrade.t.entryPrice = ec.o) ∧
      (∃ dc, wArgs.candles.get? (wTrade.entryIdx - 1) = some dc ∧
        wTrade.day = wArgs.tenv.dayKey dc.ts)) :=
  ⟨by decide, by decide,
    (simulateStrategy_no_lookahead wArgs).2.1 (by decide) wTrade (by decide),
    (simulateStrategy_no_lookahead wArgs).1 wTrade (by decide)⟩

/-- Witness for `simulateStrategy_no_overlap` at the concrete run `wArgs`. -/
theorem simulateStrategy_no_overlap_witness :
    wArgs.candles.Pairwise (fun a b => a.ts < b.ts)
    ∧ ((simulateStrategy wArgs).Pairwise (fun t1 t2 => t1.exitTs < t2.entryTs)
      ∧ ∀ t ∈ simulateStrategy wArgs, t.entryTs ≤ t.exitTs) :=
  ⟨by decide, simulateStrategy_no_overlap wArgs (by decide)⟩

/-- Witness for `simulateStrategy_one_per_level_day` at the concrete run
`wArgs`. -/
theorem simulateStrategy_one_per_level_day_witness :
    (((simulateStrategyG wArgs).filter
        (fun g => decide (g.day = 20240110 ∧ g.t.metaLevelId = "PMH"))).length
      ≤ 1)
    ∧ (∃ dc, wArgs.candles.get? (wTrade.entryIdx - 1) = some dc ∧
        wTrade.day = wArgs.tenv.dayKey dc.ts) :=
  ⟨(simulateStrategy_one_per_level_day wArgs).1 20240110 "PMH",
    (simulateStrategy_one_per_level_day wArgs).2.1 wTrade (by decide)⟩

end TradingAgent
